import Mathlib

/-!
Shallow embedding of the magql schema generator (convert.py, manager.py,
filter.py, magql_filter.py) and proofs about its schema-merging,
type-building, relationship-wiring and filter logic.
-/

namespace Magql

/-- Python dict lookup: first binding of the key in an association list. -/
def alookup {α : Type} (l : List (String × α)) (k : String) : Option α :=
  match l with
  | [] => none
  | (k', v) :: rest => if k' = k then some v else alookup rest k

/-- Replacement of every binding of a key in an association list by a new
value, keeping positions. -/
def setKey {α : Type} (l : List (String × α)) (k : String) (v : α) : List (String × α) :=
  match l with
  | [] => []
  | (k', v') :: rest =>
    if k' = k then (k, v) :: setKey rest k v else (k', v') :: setKey rest k v

/-- Python dict assignment d[k] = v: replace the value at the key's original
position when present, otherwise append the new binding at the end. -/
def dinsert {α : Type} (l : List (String × α)) (k : String) (v : α) : List (String × α) :=
  if (alookup l k).isSome then setKey l k v
  else l ++ [(k, v)]

/-- Key list of an association list, in insertion order. -/
def keysOf {α : Type} (l : List (String × α)) : List String :=
  l.map Prod.fst

mutual

/-- GraphQL type AST as used by convert.py through graphql-core:
named scalar types, object types and input object types carrying ordered
field maps, and the two wrapper variants GraphQLList and GraphQLNonNull. -/
inductive GType : Type where
  | scalar (name : String)
  | enum (name : String) (values : List (String × String))
  | object (name : String) (fields : List (String × GField))
  | inputObject (name : String) (fields : List (String × GField))
  | list (ofType : GType)
  | nonNull (ofType : GType)

/-- GraphQL field as used by convert.py: a return type, an ordered argument
map, and an optional resolver (modelled as an opaque numeric id; none is
the default attribute-lookup resolver). -/
inductive GField : Type where
  | mk (type : GType) (args : List (String × GType)) (resolve : Option Nat)

end

/-- Return type of a field. -/
def GField.type : GField → GType
  | .mk t _ _ => t

/-- Argument map of a field. -/
def GField.args : GField → List (String × GType)
  | .mk _ a _ => a

/-- Resolver of a field. -/
def GField.resolve : GField → Option Nat
  | .mk _ _ r => r

/-- Field with its return type replaced (Python: field.type = t). -/
def GField.withType : GField → GType → GField
  | .mk _ a r, t => .mk t a r

/-- Field with its resolver replaced (Python: field.resolve = r). -/
def GField.withResolve : GField → Option Nat → GField
  | .mk t a _, r => .mk t a r

/-- Name of a non-wrapper type; wrapper types have no name attribute in
graphql-core, modelled here by the empty string (never consulted on
wrappers by the embedded code paths). -/
def GType.nameOf : GType → String
  | .scalar n => n
  | .enum n _ => n
  | .object n _ => n
  | .inputObject n _ => n
  | .list _ => ""
  | .nonNull _ => ""

/-- Test for GraphQLEnumType (the isinstance check deciding the enum
resolver in build_fields_from_column). -/
def GType.isEnum : GType → Bool
  | .enum _ _ => true
  | _ => false

/-- Test for GraphQLScalarType (the isinstance check in merge_schema). -/
def GType.isScalar : GType → Bool
  | .scalar _ => true
  | _ => false

/-- Python attribute access type.fields: present on object and input object
types, an AttributeError on every other type. -/
def GType.fieldsOf : GType → Except String (List (String × GField))
  | .object _ fs => .ok fs
  | .inputObject _ fs => .ok fs
  | _ => .error "AttributeError: no attribute fields"

/-- Python attribute assignment type.fields = fs on a field-bearing type;
identity on the other variants (never reached by the embedded code). -/
def GType.setFields : GType → List (String × GField) → GType
  | .object n _, fs => .object n fs
  | .inputObject n _, fs => .inputObject n fs
  | t, _ => t

/-- One layer of wrapping: GraphQLList or GraphQLNonNull. -/
inductive Wrap : Type where
  | list
  | nonNull
deriving DecidableEq, Repr

/-- Stack of wrappers around a type, outermost first. -/
def wrapperStack : GType → List Wrap
  | .list t => Wrap.list :: wrapperStack t
  | .nonNull t => Wrap.nonNull :: wrapperStack t
  | _ => []

/-- Innermost non-wrapper type under the wrapper stack. -/
def baseOf : GType → GType
  | .list t => baseOf t
  | .nonNull t => baseOf t
  | t => t

/-- Reapply a wrapper stack, outermost first, around a type. -/
def applyWrappers : List Wrap → GType → GType
  | [], t => t
  | Wrap.list :: ws, t => .list (applyWrappers ws t)
  | Wrap.nonNull :: ws, t => .nonNull (applyWrappers ws t)

/-- Embedding of MagqlSchema.join_types (convert.py): fail when the second
type declares a field name already present on the first, otherwise build a
GraphQLObjectType carrying the first type's name and the dict union of the
fields, type1's fields first in order then type2's. -/
def joinTypes (type1 type2 : GType) : Except String GType := do
  let fs1 ← type1.fieldsOf
  let fs2 ← type2.fieldsOf
  if fs2.any (fun p => (alookup fs1 p.1).isSome) then
    .error "Duplicate fields in type, cannot resolve"
  else
    .ok (.object type1.nameOf (fs1 ++ fs2))

/-- Embedding of MagqlSchema.get_merged_object_type (convert.py):
recursively unwrap List and NonNull, substitute the innermost named type
through the joined type map when its name is present, and rewrap. -/
def getMergedObjectType (returnType : GType) (joinedTypeMap : List (String × GType)) : GType :=
  match returnType with
  | .list t => .list (getMergedObjectType t joinedTypeMap)
  | .nonNull t => .nonNull (getMergedObjectType t joinedTypeMap)
  | t =>
    match alookup joinedTypeMap t.nameOf with
    | some u => u
    | none => t

/-- Embedding of MagqlSchema.get_object_type (convert.py): unwrap wrapper
types until a type with a name attribute is reached. -/
def getObjectType : GType → GType
  | .list t => getObjectType t
  | .nonNull t => getObjectType t
  | t => t

/-- Embedding of MagqlSchema.generate_new_return_type (convert.py): unwrap
List and NonNull preserving the stack, substitute the innermost named type
through the joined type map, then rewrite its fields one level deep: every
field whose innermost return type name appears in the joined map has its
type rewritten with get_merged_object_type. Accessing fields of a type
without a fields attribute is a Python AttributeError. -/
def generateNewReturnType (returnType : GType) (joinedTypeMap : List (String × GType)) :
    Except String GType :=
  match returnType with
  | .list t => (generateNewReturnType t joinedTypeMap).map GType.list
  | .nonNull t => (generateNewReturnType t joinedTypeMap).map GType.nonNull
  | t => do
    let rt := match alookup joinedTypeMap t.nameOf with
      | some u => u
      | none => t
    let fs ← rt.fieldsOf
    let newSubFields := fs.map (fun p =>
      if (alookup joinedTypeMap (getObjectType p.2.type).nameOf).isSome then
        (p.1, p.2.withType (getMergedObjectType p.2.type joinedTypeMap))
      else p)
    .ok (rt.setFields newSubFields)

/-- Substitution of a named type through the joined type map: the map image
when the type's name is bound, the type itself otherwise (the shared base
case of get_merged_object_type and generate_new_return_type). -/
def substNamed (joinedTypeMap : List (String × GType)) (t : GType) : GType :=
  match alookup joinedTypeMap t.nameOf with
  | some u => u
  | none => t

/-- Embedding of MagqlSchema.generate_new_field (convert.py): a new field
with the rewritten return type and the original arguments and resolver. -/
def generateNewField (field : GField) (joinedTypeMap : List (String × GType)) :
    Except String GField :=
  (generateNewReturnType field.type joinedTypeMap).map
    (fun t => GField.mk t field.args field.resolve)

/-- Schema state of a MagqlSchema (convert.py): the root Query field map,
the root Mutation field map, and the schema's type registry (graphql-core's
type_map), all in insertion order. -/
structure Schema : Type where
  queryFields : List (String × GField)
  mutationFields : List (String × GField)
  typeMap : List (String × GType)

/-- Test whether a type name starts with the reserved double-underscore
convention (Python name.startswith with the two-character literal). -/
def startsWithDunder (n : String) : Bool :=
  match n.data with
  | '_' :: '_' :: _ => true
  | _ => false

/-- Loop of merge_schema (convert.py) that builds joined_type_map: iterate
the incoming schema's type map; every name also present in the primary
schema's type map, other than GraphQLScalarType entries and names starting
with the double underscore, is joined with join_types; the first raised
error aborts the merge. -/
def buildJoinedTypeMap (selfMap : List (String × GType)) :
    List (String × GType) → Except String (List (String × GType))
  | [] => .ok []
  | (n, t) :: rest =>
    match alookup selfMap n with
    | some t1 =>
      if !t.isScalar && !(startsWithDunder n) then do
        let j ← joinTypes t1 t
        let m ← buildJoinedTypeMap selfMap rest
        .ok ((n, j) :: m)
      else
        buildJoinedTypeMap selfMap rest
    | none => buildJoinedTypeMap selfMap rest

/-- Loop of merge_schema (convert.py) that rewrites one root field map into
a fresh dict: fields are processed in order and inserted with dict
semantics, so a later field of the same name replaces an earlier one. -/
def rewriteFieldsInto (acc : List (String × GField)) (joinedTypeMap : List (String × GType)) :
    List (String × GField) → Except String (List (String × GField))
  | [] => .ok acc
  | (n, f) :: rest => do
    let f' ← generateNewField f joinedTypeMap
    rewriteFieldsInto (dinsert acc n f') joinedTypeMap rest

/-- Embedding of MagqlSchema.merge_schema (convert.py): build the joined
type map from both registries, rewrite the primary schema's Query fields
then the incoming schema's Query fields into one dict (last write wins),
likewise for Mutation, and assemble the new schema. The incoming schema's
joined entries are recorded in the resulting registry. -/
def mergeSchema (self other : Schema) : Except String Schema := do
  let joined ← buildJoinedTypeMap self.typeMap other.typeMap
  let q1 ← rewriteFieldsInto [] joined self.queryFields
  let q2 ← rewriteFieldsInto q1 joined other.queryFields
  let m1 ← rewriteFieldsInto [] joined self.mutationFields
  let m2 ← rewriteFieldsInto m1 joined other.mutationFields
  .ok ⟨q2, m2, joined⟩

/-- Helper replacing the resolver of the named field in a field map
(Python mutates the looked-up field object in place). -/
def setResolve (l : List (String × GField)) (k : String) (r : Option Nat) :
    List (String × GField) :=
  match l with
  | [] => []
  | (k', f) :: rest =>
    if k' = k then (k', f.withResolve r) :: setResolve rest k r
    else (k', f) :: setResolve rest k r

/-- Embedding of MagqlSchema.override_resolver (convert.py): replace the
resolver of the named root Mutation field when present, otherwise of the
named root Query field when present, otherwise change nothing. -/
def overrideResolver (s : Schema) (fieldName : String) (resolver : Option Nat) : Schema :=
  if (alookup s.mutationFields fieldName).isSome then
    { s with mutationFields := setResolve s.mutationFields fieldName resolver }
  else if (alookup s.queryFields fieldName).isSome then
    { s with queryFields := setResolve s.queryFields fieldName resolver }
  else
    s

/-- Split of a character list on the underscore character, keeping empty
chunks, with an accumulator for the chunk being read. -/
def splitUnderscore : List Char → List Char → List (List Char)
  | [], cur => [cur.reverse]
  | c :: rest, cur =>
    if c = '_' then cur.reverse :: splitUnderscore rest []
    else splitUnderscore rest (c :: cur)

/-- Uppercasing of the first character of a chunk. -/
def capChunk : List Char → List Char
  | [] => []
  | c :: cs => c.toUpper :: cs

/-- Modelled from the spec: the camel-casing helper js_camelize, a thin
wrapper around the external inflection library's camelize with a lowercase
first letter. Underscore-separated chunks after the first are capitalized
and joined. -/
def jsCamelize (word : String) : String :=
  match splitUnderscore word.data [] with
  | [] => ""
  | h :: t => ⟨h ++ (t.map capChunk).flatten⟩

/-- Modelled from the spec: the external inflection library's camelize with
an uppercase first letter, used for type names. -/
def upCamelize (word : String) : String :=
  ⟨((splitUnderscore word.data []).map capChunk).flatten⟩

/-- Opaque resolver ids standing for the resolver objects constructed by
resolver_factory: EnumResolver, Resolver, CamelResolver, the CRUD and query
resolvers, ResultResolver and CountResolver. -/
def enumResolverId : Nat := 0

/-- Opaque id for Resolver(). -/
def plainResolverId : Nat := 1

/-- Opaque id for CamelResolver(). -/
def camelResolverId : Nat := 2

/-- Opaque id for the per-table CreateResolver. -/
def createResolverId : Nat := 3

/-- Opaque id for the per-table UpdateResolver. -/
def updateResolverId : Nat := 4

/-- Opaque id for the per-table DeleteResolver. -/
def deleteResolverId : Nat := 5

/-- Opaque id for the per-table SingleResolver. -/
def singleResolverId : Nat := 6

/-- Opaque id for the per-table ManyResolver. -/
def manyResolverId : Nat := 7

/-- Column of a table as seen by build_fields_from_column (convert.py):
its name, whether it carries foreign keys, and the GraphQL types computed
for it by the external magql.get_type helpers (get_type,
get_required_type, get_filter_type), carried as data. -/
structure GColumn : Type where
  name : String
  foreignKey : Bool
  gqlType : GType
  gqlRequiredType : GType
  gqlFilterType : GType

/-- Five field maps returned by build_fields_from_column (convert.py). -/
structure ColumnFields : Type where
  fields : List (String × GField)
  filterFields : List (String × GType)
  sortFields : List (String × String)
  requiredInputFields : List (String × GType)
  inputFields : List (String × GType)

/-- Body of the per-column loop of build_fields_from_column (convert.py):
foreign-key columns contribute nothing; otherwise the camelized column name
keys one object field (with the enum decode resolver when the base type is
an enum), one required-input field, one input field, one filter field, and
the two sort entries built from the camelized name. -/
def buildFieldsStep (acc : ColumnFields) (col : GColumn) : ColumnFields :=
  if col.foreignKey then acc
  else
    let columnName := jsCamelize col.name
    let baseType := col.gqlType
    let f0 : GField := .mk baseType [] none
    let f := if baseType.isEnum then f0.withResolve (some enumResolverId) else f0
    { fields := dinsert acc.fields columnName f
      requiredInputFields := dinsert acc.requiredInputFields columnName col.gqlRequiredType
      inputFields := dinsert acc.inputFields columnName baseType
      filterFields := dinsert acc.filterFields columnName col.gqlFilterType
      sortFields :=
        dinsert (dinsert acc.sortFields (columnName ++ "_asc") (columnName ++ "_asc"))
          (columnName ++ "_desc") (columnName ++ "_desc") }

/-- Embedding of MagqlSchema.build_fields_from_column (convert.py). -/
def buildFieldsFromColumn (cols : List GColumn) : ColumnFields :=
  cols.foldl buildFieldsStep ⟨[], [], [], [], []⟩

/-- The shared RelFilter input type (filter.py), as referenced from
convert.py relationship wiring. -/
def relFilterG : GType :=
  .inputObject "RelFilter"
    [("operator", .mk (.enum "RelOperator" [("INCLUDES", "INCLUDES")]) [] none),
     ("value", .mk (.scalar "Int") [] none)]

/-- Test whether the first character list starts the second. -/
def leadsList : List Char → List Char → Bool
  | [], _ => true
  | _ :: _, [] => false
  | a :: as, b :: bs => a = b && leadsList as bs

/-- Test whether the first character list occurs inside the second. -/
def insideList (p : List Char) : List Char → Bool
  | [] => p.isEmpty
  | c :: rest => leadsList p (c :: rest) || insideList p rest

/-- Python substring containment of TOMANY in a relationship direction name
such as MANYTOONE, ONETOMANY or MANYTOMANY. -/
def hasTOMANY (direction : String) : Bool :=
  insideList "TOMANY".data direction.data

/-- Four entity nodes mutated by the relationship wiring loop of
MagqlSchema.__init__ (convert.py). -/
structure ConvertEntityNodes : Type where
  object : List (String × GField)
  input : List (String × GType)
  requiredInput : List (String × GType)
  filter : List (String × GType)

/-- Body of the per-relationship wiring loop of MagqlSchema.__init__
(convert.py): the relationship object field is the target's object type,
List-wrapped when the direction contains TOMANY; the input and required
input fields are GraphQLID, List-wrapped when TOMANY, and the required
input is NonNull-wrapped when the relationship is toOne and required. All
four fields are assigned unconditionally with dict semantics. -/
def convertWireRel (nodes : ConvertEntityNodes) (relName : String) (direction : String)
    (required : Bool) (targetObject : GType) : ConvertEntityNodes :=
  let relObject := targetObject
  let relInput : GType := .scalar "ID"
  let relRequiredInput : GType := .scalar "ID"
  let wired :=
    if hasTOMANY direction then
      (GType.list relObject, GType.list relInput, GType.list relRequiredInput)
    else if required then
      (relObject, relInput, GType.nonNull relRequiredInput)
    else
      (relObject, relInput, relRequiredInput)
  let relationshipName := jsCamelize relName
  { requiredInput := dinsert nodes.requiredInput relationshipName wired.2.2
    input := dinsert nodes.input relationshipName wired.2.1
    object := dinsert nodes.object relationshipName (.mk wired.1 [] (some plainResolverId))
    filter := dinsert nodes.filter relationshipName relFilterG }

/-- Modelled from the spec: the TypeNode data model of magql.definitions
(not under src), as used by manager.py — a type is a bare name reference, an
enum with a value map, an input object with a field map, or a List or
NonNull wrapper around an inner type. -/
inductive MagqlType : Type where
  | named (name : String)
  | enumT (name : String) (values : List (String × String))
  | inputObjectT (name : String) (fields : List (String × MagqlType))
  | list (inner : MagqlType)
  | nonNull (inner : MagqlType)

/-- Test whether a Magql type is NonNull-wrapped at its outermost layer. -/
def MagqlType.isNonNull : MagqlType → Bool
  | .nonNull _ => true
  | _ => false

/-- Test whether a Magql type is List-wrapped at its outermost layer. -/
def MagqlType.isList : MagqlType → Bool
  | .list _ => true
  | _ => false

/-- Test for MagqlEnumType (the isinstance check deciding the enum resolver
in generate_types of manager.py). -/
def MagqlType.isEnumT : MagqlType → Bool
  | .enumT _ _ => true
  | _ => false

/-- Modelled from the spec: the FieldNode of magql.definitions as used by
manager.py (MagqlField): a type reference, an argument map and an optional
resolver id. -/
structure MField : Type where
  typeRef : MagqlType
  args : List (String × MagqlType)
  resolve : Option Nat

/-- The shared RelFilter input type (filter.py), as referenced from
manager.py relationship wiring. -/
def relFilterM : MagqlType :=
  .inputObjectT "RelFilter"
    [("operator", .enumT "RelOperator" [("INCLUDES", "INCLUDES")]),
     ("value", .named "Int")]

/-- Column of a table as seen by generate_types (manager.py): its name,
whether it carries foreign keys, whether it is part of the primary key, and
the Magql types computed for it by the external magql.type helpers
(get_magql_type, get_magql_required_type, get_magql_filter_type), carried
as data. -/
structure MColumn : Type where
  name : String
  foreignKey : Bool
  primaryKey : Bool
  magqlType : MagqlType
  magqlRequiredType : MagqlType
  magqlFilterType : MagqlType

/-- Field maps of the five per-entity type nodes built by generate_types
and extended by add_rels (manager.py): the base object type, the Input and
InputRequired input types, the Filter input type, and the Sort enum's value
map. -/
structure ManagerTypes : Type where
  base : List (String × MField)
  input : List (String × MagqlType)
  inputRequired : List (String × MagqlType)
  filter : List (String × MagqlType)
  sortValues : List (String × String)

/-- Body of the per-column loop of generate_types (manager.py): foreign-key
columns are skipped entirely; the base object field (with the enum decode
resolver when the type is an enum), the filter field and the two sort
values are keyed by the camelized column name for every remaining column,
while the input and required-input fields are added only when the column is
not part of the primary key. -/
def generateTypesStep (acc : ManagerTypes) (col : MColumn) : ManagerTypes :=
  if col.foreignKey then acc
  else
    let fieldName := jsCamelize col.name
    let f0 : MField := ⟨col.magqlType, [], some camelResolverId⟩
    let f := if col.magqlType.isEnumT then { f0 with resolve := some enumResolverId } else f0
    { base := dinsert acc.base fieldName f
      input :=
        if col.primaryKey then acc.input
        else dinsert acc.input fieldName col.magqlType
      inputRequired :=
        if col.primaryKey then acc.inputRequired
        else dinsert acc.inputRequired fieldName col.magqlRequiredType
      filter := dinsert acc.filter fieldName col.magqlFilterType
      sortValues :=
        dinsert (dinsert acc.sortValues (fieldName ++ "_asc") (col.name ++ "_asc"))
          (fieldName ++ "_desc") (col.name ++ "_desc") }

/-- Embedding of MagqlTableManager.generate_types (manager.py), restricted
to the field maps of the five type nodes it creates. -/
def managerGenerateTypes (cols : List MColumn) : ManagerTypes :=
  cols.foldl generateTypesStep ⟨[], [], [], [], []⟩

/-- Python type of a primary-key column (column.type.python_type), the key
of the input_field_types lookup in add_rels (manager.py). -/
inductive PyType : Type where
  | str
  | int
  | bool
  | float
  | other (descr : String)
deriving DecidableEq, Repr

/-- The input_field_types dict of add_rels (manager.py): str, int, bool and
float map to the four scalar names; any other key raises KeyError. -/
def inputFieldTypes : PyType → Option String
  | .str => some "String"
  | .int => some "Int"
  | .bool => some "Boolean"
  | .float => some "Float"
  | .other _ => none

/-- Relationship as consumed by add_rels (manager.py): its name, the
resolved Magql name of the target entity, the SQLAlchemy direction name,
whether the owning foreign key is non-nullable, and the Python type of the
target table's primary-key column named id. -/
structure MRel : Type where
  name : String
  targetName : String
  direction : String
  required : Bool
  targetPkPyType : PyType

/-- Body of the per-relationship loop of add_rels (manager.py): look up the
scalar name for the target's primary-key Python type (raising KeyError when
absent from the dict), Listwrap all three field types when the direction
contains TOMANY, otherwise NonNull-wrap only the required-input field when
the relationship is required, and then add each of the four fields only
when no field of that name already exists on the node. -/
def addRelsStep (maps : ManagerTypes) (rel : MRel) : Except String ManagerTypes := do
  let fieldName := jsCamelize rel.name
  let fieldType ←
    match inputFieldTypes rel.targetPkPyType with
    | some ft => Except.ok ft
    | none =>
      Except.error "The value set as the primary key for the relationship is not valid"
  let baseField : MagqlType := .named rel.targetName
  let inputField : MagqlType := .named fieldType
  let inputRequiredField : MagqlType := .named fieldType
  let wired :=
    if hasTOMANY rel.direction then
      (MagqlType.list baseField, MagqlType.list inputField, MagqlType.list inputRequiredField)
    else if rel.required then
      (baseField, inputField, MagqlType.nonNull inputRequiredField)
    else
      (baseField, inputField, inputRequiredField)
  let maps :=
    if (alookup maps.inputRequired fieldName).isSome then maps
    else { maps with inputRequired := dinsert maps.inputRequired fieldName wired.2.2 }
  let maps :=
    if (alookup maps.input fieldName).isSome then maps
    else { maps with input := dinsert maps.input fieldName wired.2.1 }
  let maps :=
    if (alookup maps.base fieldName).isSome then maps
    else { maps with base := dinsert maps.base fieldName ⟨wired.1, [], some plainResolverId⟩ }
  let maps :=
    if (alookup maps.filter fieldName).isSome then maps
    else { maps with filter := dinsert maps.filter fieldName relFilterM }
  .ok maps

/-- Embedding of the relationship loop of MagqlTableManager.add_rels
(manager.py) over a list of relationships. The trailing Payload and
ListPayload registry assignments of add_rels touch none of the five nodes
above and are not modelled. -/
def addRels (maps : ManagerTypes) (rels : List MRel) : Except String ManagerTypes :=
  rels.foldlM addRelsStep maps

/-- SQLAlchemy condition expression produced by a filter comparator,
abstracted over the concrete field and value: the comparison shape alone. -/
inductive SqlCond : Type where
  | lt
  | le
  | eq
  | ne
  | gt
  | ge
  | like
deriving DecidableEq, Repr

/-- Embedding of the comparator registered for Date and DateTime columns in
filter.py (get_filter_comparator): the returned condition function compares
the operator string against BEFORE, ON, and the mixed-case literal After; a
Python function falling through every branch returns None. -/
def dateCondition (filterOperator : String) : Option SqlCond :=
  if filterOperator = "BEFORE" then some .lt
  else if filterOperator = "ON" then some .eq
  else if filterOperator = "After" then some .gt
  else none

/-- Value names of the DateOperator enum declared by DateFilter in
filter.py. -/
def dateOperatorValues : List String := ["BEFORE", "ON", "AFTER"]

/-- Embedding of the string-like comparator of magql_filter.py, the one the
Date and DateTime column types are registered to there: only INCLUDES and
EQUALS produce a condition; everything else logs and returns None. -/
def magqlStringCondition (filterOperator : String) : Option SqlCond :=
  if filterOperator = "INCLUDES" then some .like
  else if filterOperator = "EQUALS" then some .eq
  else none

/-- Comparator dispatched for Date and DateTime columns by
get_filter_comparator of magql_filter.py, where those types are registered
to the string-like comparator. -/
def magqlDateCondition (filterOperator : String) : Option SqlCond :=
  magqlStringCondition filterOperator

/-- Modelled from the spec: the external inflection library's pluralize,
used for the many-query name; its exact output never matters to the claims,
only that it is a function of the table name. -/
def pluralizeName (word : String) : String := word ++ "s"

/-- Table metadata as consumed by MagqlTableManagerCollection (manager.py):
the table's name and whether sqlalchemy_utils.get_mapper succeeds on it
(whether a model is mapped to it). -/
structure Table : Type where
  name : String
  hasMapper : Bool

/-- Manager state relevant to the root field sets: the Magql name and the
query and mutation field maps populated by to_magql (manager.py). -/
structure Manager : Type where
  magqlName : String
  queryFields : List (String × MField)
  mutationFields : List (String × MField)

/-- Embedding of MagqlTableManager construction followed by to_magql
(manager.py): the five CRUD fields generated by generate_magql_types are
installed on the manager's own Query and Mutation objects under the single,
many, create, update and delete names. -/
def mkTableManager (t : Table) : Manager :=
  let magqlName := upCamelize t.name
  let create : MField :=
    ⟨.named (magqlName ++ "Payload"),
     [("input", .nonNull (.named (magqlName ++ "InputRequired")))],
     some createResolverId⟩
  let update : MField :=
    ⟨.named (magqlName ++ "Payload"),
     [("id", .nonNull (.named "ID")), ("input", .nonNull (.named (magqlName ++ "Input")))],
     some updateResolverId⟩
  let del : MField :=
    ⟨.named (magqlName ++ "Payload"), [("id", .nonNull (.named "ID"))],
     some deleteResolverId⟩
  let single : MField :=
    ⟨.named (magqlName ++ "Payload"), [("id", .nonNull (.named "ID"))],
     some singleResolverId⟩
  let many : MField :=
    ⟨.named (magqlName ++ "ListPayload"),
     [("filter", .named (magqlName ++ "Filter")),
      ("sort", .list (.nonNull (.named (magqlName ++ "Sort")))),
      ("page", .named "Page")],
     some manyResolverId⟩
  { magqlName := magqlName
    queryFields :=
      dinsert (dinsert [] (jsCamelize t.name) single)
        (jsCamelize (pluralizeName t.name)) many
    mutationFields :=
      dinsert (dinsert (dinsert [] ("create" ++ magqlName) create)
        ("update" ++ magqlName) update) ("delete" ++ magqlName) del }

/-- Embedding of MagqlTableManagerCollection.generate_manager (manager.py):
a table whose get_mapper lookup fails yields no manager and a logged
warning; otherwise a table manager is built. -/
def generateManager (t : Table) : Option Manager × List String :=
  if t.hasMapper then (some (mkTableManager t), [])
  else (none, ["No mapper for table '" ++ t.name ++ "'."])

/-- Embedding of the first loop of MagqlTableManagerCollection.__init__
(manager.py) with no pre-existing managers: every table is processed in
order, its manager (or None) recorded in the manager map, and all warnings
accumulated; tables without a manager are skipped, never fatal. The later
passes (add_rels, checkDelete and pagination managers) do not consult the
skipped tables. -/
def collectionInit : List (String × Table) → List (String × Option Manager) × List String
  | [] => ([], [])
  | (n, t) :: rest =>
    let g := generateManager t
    let r := collectionInit rest
    ((n, g.1) :: r.1, g.2 ++ r.2)

/-- Modelled from the spec: the Schema Assembler's collection of all
managers' query fields into the root Query field set, in manager-map order;
managers absent for unmapped tables contribute nothing. -/
def rootQueryFields (managerMap : List (String × Option Manager)) : List (String × MField) :=
  managerMap.flatMap (fun p => match p.2 with
    | some m => m.queryFields
    | none => [])

/-- Modelled from the spec: the Schema Assembler's collection of all
managers' mutation fields into the root Mutation field set, in manager-map
order; managers absent for unmapped tables contribute nothing. -/
def rootMutationFields (managerMap : List (String × Option Manager)) :
    List (String × MField) :=
  managerMap.flatMap (fun p => match p.2 with
    | some m => m.mutationFields
    | none => [])

/-- Concrete schema used to witness the override_resolver claim: the name
createUser is both a mutation field and a query field. -/
def demoOverrideSchema : Schema :=
  { queryFields :=
      [("createUser", .mk (.scalar "String") [] (some 21)),
       ("users", .mk (.list (.object "User" [])) [] (some manyResolverId))]
    mutationFields :=
      [("createUser", .mk (.object "UserPayload" []) [("input", .scalar "ID")]
          (some createResolverId))]
    typeMap := [] }

/-- Empty entity node maps, as before any relationship wiring. -/
def demoEmptyMaps : ManagerTypes := ⟨[], [], [], [], []⟩

/-- Concrete toMany relationship used in witnesses. -/
def demoRelTags : MRel := ⟨"tags", "Tag", "ONETOMANY", false, .int⟩

/-- Node maps after wiring the concrete toMany relationship. -/
def demoRelTagsAfter : ManagerTypes :=
  ⟨[("tags", ⟨.list (.named "Tag"), [], some plainResolverId⟩)],
   [("tags", .list (.named "Int"))],
   [("tags", .list (.named "Int"))],
   [("tags", relFilterM)],
   []⟩

/-- Concrete toOne required relationship whose target key type is invalid. -/
def demoRelBad : MRel := ⟨"owner", "Owner", "MANYTOONE", true, .other "date"⟩

/-- Concrete toOne required relationship with an int target key. -/
def demoRelOwner : MRel := ⟨"owner", "Owner", "MANYTOONE", true, .int⟩

/-- Node maps after wiring the concrete toOne required relationship. -/
def demoRelOwnerAfter : ManagerTypes :=
  ⟨[("owner", ⟨.named "Owner", [], some plainResolverId⟩)],
   [("owner", .named "Int")],
   [("owner", .nonNull (.named "Int"))],
   [("owner", relFilterM)],
   []⟩

/-- Pre-existing column field used in the C6 counterexample. -/
def demoPreField : GField := .mk (.scalar "String") [] none

/-- Entity nodes already carrying a column field named tags, before the
convert.py relationship wiring runs for a relationship of the same name. -/
def demoConvertNodes : ConvertEntityNodes :=
  ⟨[("tags", demoPreField)], [], [], []⟩

/-- Entity node maps already carrying a base field named tags. -/
def demoPreMaps : ManagerTypes :=
  ⟨[("tags", ⟨.named "String", [], none⟩)], [], [], [], []⟩

/-- Node maps after add_rels wires the tags relationship over the
pre-existing base field: the base field is untouched. -/
def demoPreMapsAfter : ManagerTypes :=
  ⟨[("tags", ⟨.named "String", [], none⟩)],
   [("tags", .list (.named "Int"))],
   [("tags", .list (.named "Int"))],
   [("tags", relFilterM)],
   []⟩

/-- Folding dict assignment over a list of bindings, in order. -/
def dinsertAll {β : Type} (acc : List (String × β)) (es : List (String × β)) :
    List (String × β) :=
  es.foldl (fun l p => dinsert l p.1 p.2) acc

/-- Entries contributed by one column to the base object node in
generate_types (manager.py). -/
def gBaseEntries (col : MColumn) : List (String × MField) :=
  if col.foreignKey then []
  else
    [(jsCamelize col.name,
      if col.magqlType.isEnumT then ⟨col.magqlType, [], some enumResolverId⟩
      else ⟨col.magqlType, [], some camelResolverId⟩)]

/-- Entries contributed by one column to the Input node in generate_types
(manager.py): none for foreign-key or primary-key columns. -/
def gInputEntries (col : MColumn) : List (String × MagqlType) :=
  if col.foreignKey then []
  else if col.primaryKey then []
  else [(jsCamelize col.name, col.magqlType)]

/-- Entries contributed by one column to the InputRequired node in
generate_types (manager.py): none for foreign-key or primary-key columns. -/
def gInputReqEntries (col : MColumn) : List (String × MagqlType) :=
  if col.foreignKey then []
  else if col.primaryKey then []
  else [(jsCamelize col.name, col.magqlRequiredType)]

/-- Entries contributed by one column to the Filter node in generate_types
(manager.py). -/
def gFilterEntries (col : MColumn) : List (String × MagqlType) :=
  if col.foreignKey then []
  else [(jsCamelize col.name, col.magqlFilterType)]

/-- Entries contributed by one column to the Sort enum in generate_types
(manager.py). -/
def gSortEntries (col : MColumn) : List (String × String) :=
  if col.foreignKey then []
  else
    [(jsCamelize col.name ++ "_asc", col.name ++ "_asc"),
     (jsCamelize col.name ++ "_desc", col.name ++ "_desc")]

/-- Entries contributed by one column to the fields map in
build_fields_from_column (convert.py). -/
def cFieldEntries (col : GColumn) : List (String × GField) :=
  if col.foreignKey then []
  else
    [(jsCamelize col.name,
      if col.gqlType.isEnum then GField.mk col.gqlType [] (some enumResolverId)
      else GField.mk col.gqlType [] none)]

/-- Entries contributed by one column to the required-input map in
build_fields_from_column (convert.py). -/
def cReqEntries (col : GColumn) : List (String × GType) :=
  if col.foreignKey then [] else [(jsCamelize col.name, col.gqlRequiredType)]

/-- Entries contributed by one column to the input map in
build_fields_from_column (convert.py). -/
def cInputEntries (col : GColumn) : List (String × GType) :=
  if col.foreignKey then [] else [(jsCamelize col.name, col.gqlType)]

/-- Entries contributed by one column to the filter map in
build_fields_from_column (convert.py). -/
def cFilterEntries (col : GColumn) : List (String × GType) :=
  if col.foreignKey then [] else [(jsCamelize col.name, col.gqlFilterType)]

/-- Entries contributed by one column to the sort map in
build_fields_from_column (convert.py): both the key and the value use the
camelized column name there. -/
def cSortEntries (col : GColumn) : List (String × String) :=
  if col.foreignKey then []
  else
    [(jsCamelize col.name ++ "_asc", jsCamelize col.name ++ "_asc"),
     (jsCamelize col.name ++ "_desc", jsCamelize col.name ++ "_desc")]

/-- Concrete primary-key column named id, not a foreign key. -/
def demoColId : MColumn :=
  ⟨"id", false, true, .named "ID", .nonNull (.named "ID"), .named "IntFilter"⟩

/-- Concrete plain column named name. -/
def demoColName : MColumn :=
  ⟨"name", false, false, .named "String", .nonNull (.named "String"), .named "StringFilter"⟩

/-- Concrete two-column table: an id primary key and a name column. -/
def demoCols : List MColumn := [demoColId, demoColName]

/-- Concrete columns for the convert.py builder. -/
def demoGCols : List GColumn :=
  [⟨"id", false, .scalar "ID", .nonNull (.scalar "ID"), .inputObject "IntFilter" []⟩,
   ⟨"name", false, .scalar "String", .nonNull (.scalar "String"),
     .inputObject "StringFilter" []⟩]

/-- Test whether a type carries a fields attribute (object or input object
in graphql-core). -/
def fieldBearing (t : GType) : Bool :=
  match t with
  | .object _ _ => true
  | .inputObject _ _ => true
  | _ => false

/-- Schema with no types and no root fields, the second operand of the
merge-identity claim. -/
def emptySchema : Schema := ⟨[], [], []⟩

/-- Concrete assembled schema used for the C4 witness. -/
def demoAssembled : Schema :=
  { queryFields :=
      [("user", .mk (.object "User" [("name", .mk (.scalar "String") [] none)])
          [("id", .nonNull (.scalar "ID"))] (some singleResolverId)),
       ("users", .mk (.list (.object "User" [("name", .mk (.scalar "String") [] none)]))
          [] (some manyResolverId))]
    mutationFields :=
      [("createUser", .mk (.nonNull (.object "UserPayload" [])) [] (some createResolverId))]
    typeMap := [("User", .object "User" [("name", .mk (.scalar "String") [] none)])] }

/-- Concrete tables used for the C8 witness: posts has a mapped model,
ghosts does not. -/
def demoTables : List (String × Table) :=
  [("posts", ⟨"posts", true⟩), ("ghosts", ⟨"ghosts", false⟩)]

/-! Association-list lemmas relating dict lookup, dict assignment and key
lists. -/

theorem alookup_nil {α : Type} (k : String) : alookup ([] : List (String × α)) k = none := rfl

theorem alookup_cons {α : Type} (k' k : String) (v : α) (l : List (String × α)) :
    alookup ((k', v) :: l) k = if k' = k then some v else alookup l k := rfl

theorem alookup_append_of_none {α : Type} {l : List (String × α)} {k : String}
    (l' : List (String × α)) (h : alookup l k = none) :
    alookup (l ++ l') k = alookup l' k := by
  induction l with
  | nil => simp
  | cons p rest ih =>
    rw [alookup] at h
    by_cases hk : p.1 = k
    · simp [hk] at h
    · simpa [alookup, hk] using ih (by simpa [hk] using h)

theorem alookup_append_left {α : Type} {l : List (String × α)} {k : String} {v : α}
    (l' : List (String × α)) (h : alookup l k = some v) :
    alookup (l ++ l') k = some v := by
  induction l with
  | nil => simp [alookup] at h
  | cons p rest ih =>
    rw [alookup] at h
    by_cases hk : p.1 = k
    · simpa [alookup, hk] using by simpa [hk] using h
    · simpa [alookup, hk] using ih (by simpa [hk] using h)

theorem alookup_eq_none_iff {α : Type} (l : List (String × α)) (k : String) :
    alookup l k = none ↔ k ∉ keysOf l := by
  induction l with
  | nil => simp [alookup, keysOf]
  | cons p rest ih =>
    by_cases hk : p.1 = k
    · simp [alookup, hk, keysOf]
    · simp [alookup, hk, keysOf, ih, Ne.symm hk]

theorem alookup_isSome_iff {α : Type} (l : List (String × α)) (k : String) :
    (alookup l k).isSome = true ↔ k ∈ keysOf l := by
  rcases h : alookup l k with _ | v
  · simpa [h] using (alookup_eq_none_iff l k).mp h
  · simp only [h, Option.isSome_some, true_iff]
    by_contra hmem
    rw [← alookup_eq_none_iff] at hmem
    rw [h] at hmem
    exact Option.noConfusion hmem

theorem alookup_mem {α : Type} {l : List (String × α)} {k : String} {v : α}
    (h : alookup l k = some v) : (k, v) ∈ l := by
  induction l with
  | nil => simp [alookup] at h
  | cons p rest ih =>
    obtain ⟨a, b⟩ := p
    rw [alookup] at h
    by_cases hk : a = k
    · subst hk
      rw [if_pos rfl] at h
      injection h with h
      subst h
      exact List.mem_cons_self _ _
    · simp only [if_neg hk] at h
      exact List.mem_cons_of_mem _ (ih h)

theorem dinsert_of_none {α : Type} {l : List (String × α)} {k : String} (v : α)
    (h : alookup l k = none) : dinsert l k v = l ++ [(k, v)] := by
  simp [dinsert, h]

theorem alookup_setKey_of_some {α : Type} {l : List (String × α)} {k : String} {w : α}
    (v : α) (h : alookup l k = some w) :
    alookup (setKey l k v) k = some v := by
  induction l with
  | nil => simp [alookup] at h
  | cons p rest ih =>
    obtain ⟨a, b⟩ := p
    rw [alookup] at h
    by_cases hk : a = k
    · simp [setKey, alookup, hk]
    · rw [setKey]
      simp only [if_neg hk]
      rw [alookup, if_neg hk]
      exact ih (by simpa [hk] using h)

theorem alookup_dinsert_self {α : Type} (l : List (String × α)) (k : String) (v : α) :
    alookup (dinsert l k v) k = some v := by
  rcases h : alookup l k with _ | w
  · rw [dinsert_of_none v h, alookup_append_of_none _ h]
    simp [alookup]
  · have : (alookup l k).isSome = true := by simp [h]
    rw [dinsert, if_pos this]
    exact alookup_setKey_of_some v h

theorem alookup_setKey_ne {α : Type} (l : List (String × α)) {k k' : String} (v : α)
    (hne : k' ≠ k) :
    alookup (setKey l k v) k' = alookup l k' := by
  induction l with
  | nil => simp [setKey, alookup]
  | cons p rest ih =>
    obtain ⟨a, b⟩ := p
    rw [setKey]
    by_cases hk : a = k
    · simp only [if_pos hk]
      rw [alookup, alookup, if_neg (Ne.symm hne), if_neg (by rw [hk]; exact Ne.symm hne)]
      exact ih
    · simp only [if_neg hk]
      rw [alookup, alookup]
      by_cases hk' : a = k'
      · simp [hk']
      · simp only [if_neg hk']
        exact ih

theorem alookup_dinsert_ne {α : Type} (l : List (String × α)) {k k' : String} (v : α)
    (hne : k' ≠ k) : alookup (dinsert l k v) k' = alookup l k' := by
  rcases h : alookup l k with _ | w
  · rw [dinsert_of_none v h]
    rcases h' : alookup l k' with _ | w'
    · rw [alookup_append_of_none _ h']
      simp [alookup, Ne.symm hne]
    · exact alookup_append_left _ h'
  · have : (alookup l k).isSome = true := by simp [h]
    rw [dinsert, if_pos this]
    exact alookup_setKey_ne l v hne

theorem gfield_eta (f : GField) : GField.mk f.type f.args f.resolve = f := by
  cases f
  rfl

theorem withResolve_type (f : GField) (r : Option Nat) : (f.withResolve r).type = f.type := by
  cases f
  rfl

theorem withResolve_args (f : GField) (r : Option Nat) : (f.withResolve r).args = f.args := by
  cases f
  rfl

theorem alookup_setResolve_of_some {l : List (String × GField)} {k : String} {f : GField}
    (r : Option Nat) (h : alookup l k = some f) :
    alookup (setResolve l k r) k = some (f.withResolve r) := by
  induction l with
  | nil => simp [alookup] at h
  | cons p rest ih =>
    obtain ⟨a, b⟩ := p
    rw [alookup] at h
    by_cases hk : a = k
    · subst hk
      rw [if_pos rfl] at h
      injection h with h
      subst h
      simp [setResolve, alookup]
    · rw [if_neg hk] at h
      rw [setResolve]
      simp only [if_neg hk]
      rw [alookup, if_neg hk]
      exact ih h

theorem alookup_setResolve_ne (l : List (String × GField)) {k k' : String} (r : Option Nat)
    (hne : k' ≠ k) : alookup (setResolve l k r) k' = alookup l k' := by
  induction l with
  | nil => simp [setResolve, alookup]
  | cons p rest ih =>
    obtain ⟨a, b⟩ := p
    rw [setResolve]
    by_cases hk : a = k
    · simp only [if_pos hk]
      rw [alookup, alookup]
      rw [if_neg (by rw [hk]; exact Ne.symm hne), if_neg (by rw [hk]; exact Ne.symm hne)]
      exact ih
    · simp only [if_neg hk]
      rw [alookup, alookup]
      by_cases hk' : a = k'
      · simp [hk']
      · simp only [if_neg hk']
        exact ih

/-- C9: for date and datetime columns the spec declares the operator set
BEFORE, ON, AFTER, with AFTER producing a greater-than condition. The
DateOperator enum of DateFilter in filter.py does declare AFTER, but the
comparator registered for Date and DateTime compares the operator against
the mixed-case literal After, so the declared operator AFTER produces no
condition at all, while BEFORE and ON work as specified; in
magql_filter.py the Date and DateTime types are registered to the
string-like comparator, which produces no condition for any of the three
date operators. -/
theorem claimC9_date_after_operator_bug :
    dateCondition "BEFORE" = some SqlCond.lt ∧
    dateCondition "ON" = some SqlCond.eq ∧
    dateCondition "AFTER" = none ∧
    dateCondition "After" = some SqlCond.gt ∧
    dateOperatorValues = ["BEFORE", "ON", "AFTER"] ∧
    magqlDateCondition "BEFORE" = none ∧
    magqlDateCondition "ON" = none ∧
    magqlDateCondition "AFTER" = none := by
  refine ⟨rfl, ?_, ?_, ?_, rfl, ?_, ?_, ?_⟩ <;> decide

/-- C10: override_resolver replaces only the named root Mutation field's
resolver when the name is a mutation field (even when a query field shares
the name), otherwise only the named root Query field's resolver when the
name is a query field, and otherwise changes nothing and raises no error;
in every case the named field's declared return type and arguments and all
other fields of both roots are unchanged. -/
theorem claimC10_override_resolver (s : Schema) (fn : String) (r : Option Nat) :
    (∀ f, alookup s.mutationFields fn = some f →
      alookup (overrideResolver s fn r).mutationFields fn = some (f.withResolve r) ∧
      (f.withResolve r).type = f.type ∧
      (f.withResolve r).args = f.args ∧
      (∀ k, k ≠ fn →
        alookup (overrideResolver s fn r).mutationFields k = alookup s.mutationFields k) ∧
      (overrideResolver s fn r).queryFields = s.queryFields ∧
      (overrideResolver s fn r).typeMap = s.typeMap) ∧
    (alookup s.mutationFields fn = none →
      ∀ f, alookup s.queryFields fn = some f →
        alookup (overrideResolver s fn r).queryFields fn = some (f.withResolve r) ∧
        (f.withResolve r).type = f.type ∧
        (f.withResolve r).args = f.args ∧
        (∀ k, k ≠ fn →
          alookup (overrideResolver s fn r).queryFields k = alookup s.queryFields k) ∧
        (overrideResolver s fn r).mutationFields = s.mutationFields ∧
        (overrideResolver s fn r).typeMap = s.typeMap) ∧
    (alookup s.mutationFields fn = none → alookup s.queryFields fn = none →
      overrideResolver s fn r = s) := by
  refine ⟨?_, ?_, ?_⟩
  · intro f hf
    have hs : (alookup s.mutationFields fn).isSome = true := by simp [hf]
    simp only [overrideResolver, if_pos hs]
    exact ⟨alookup_setResolve_of_some r hf, withResolve_type f r, withResolve_args f r,
      fun k hk => alookup_setResolve_ne _ r hk, trivial, trivial⟩
  · intro hnone f hf
    have hns : ¬(alookup s.mutationFields fn).isSome = true := by simp [hnone]
    have hs : (alookup s.queryFields fn).isSome = true := by simp [hf]
    simp only [overrideResolver, if_neg hns, if_pos hs]
    exact ⟨alookup_setResolve_of_some r hf, withResolve_type f r, withResolve_args f r,
      fun k hk => alookup_setResolve_ne _ r hk, trivial, trivial⟩
  · intro hm hq
    have hns : ¬(alookup s.mutationFields fn).isSome = true := by simp [hm]
    have hqs : ¬(alookup s.queryFields fn).isSome = true := by simp [hq]
    simp only [overrideResolver, if_neg hns, if_neg hqs]

/-- Witness for C10: overriding createUser on the concrete schema replaces
only the mutation field's resolver and leaves the query field map intact. -/
theorem claimC10_override_resolver_witness :
    alookup demoOverrideSchema.mutationFields "createUser" =
      some (.mk (.object "UserPayload" []) [("input", .scalar "ID")] (some createResolverId)) ∧
    alookup (overrideResolver demoOverrideSchema "createUser" (some 99)).mutationFields
        "createUser" =
      some ((GField.mk (.object "UserPayload" []) [("input", .scalar "ID")]
        (some createResolverId)).withResolve (some 99)) ∧
    (overrideResolver demoOverrideSchema "createUser" (some 99)).queryFields =
      demoOverrideSchema.queryFields :=
  ⟨rfl,
   ((claimC10_override_resolver demoOverrideSchema "createUser" (some 99)).1 _ rfl).1,
   (((claimC10_override_resolver demoOverrideSchema "createUser" (some 99)).1 _ rfl).2.2.2.2).1⟩

/-- C3: for a toMany relationship the entity's object-type field is the
List-wrapped reference to the target's object type and is never
NonNull-wrapped; for a toOne required relationship the InputRequired field
is NonNull-wrapped while the plain Input field is never NonNull-wrapped. -/
theorem claimC3_relationship_wrapping
    (maps : ManagerTypes) (rel : MRel) (maps' : ManagerTypes) (ft : String)
    (hft : inputFieldTypes rel.targetPkPyType = some ft)
    (hbase : alookup maps.base (jsCamelize rel.name) = none)
    (hinput : alookup maps.input (jsCamelize rel.name) = none)
    (hreq : alookup maps.inputRequired (jsCamelize rel.name) = none)
    (hok : addRelsStep maps rel = Except.ok maps') :
    (hasTOMANY rel.direction = true →
      alookup maps'.base (jsCamelize rel.name) =
        some ⟨MagqlType.list (.named rel.targetName), [], some plainResolverId⟩ ∧
      (MagqlType.list (.named rel.targetName)).isNonNull = false) ∧
    (hasTOMANY rel.direction = false → rel.required = true →
      alookup maps'.inputRequired (jsCamelize rel.name) =
        some (MagqlType.nonNull (.named ft)) ∧
      alookup maps'.input (jsCamelize rel.name) = some (MagqlType.named ft) ∧
      (MagqlType.named ft).isNonNull = false) := by
  constructor
  · intro htm
    simp only [addRelsStep, hft, htm, if_true, hreq, hbase, hinput, Option.isSome_none,
      Bool.false_eq_true, if_false, bind, Except.bind, Except.ok.injEq] at hok
    subst hok
    by_cases hfil : (alookup maps.filter (jsCamelize rel.name)).isSome = true <;>
      simp only [hfil, if_true, if_false, Bool.false_eq_true] <;>
      exact ⟨alookup_dinsert_self _ _ _, rfl⟩
  · intro htm hrq
    simp only [addRelsStep, hft, htm, hrq, if_true, hreq, hbase, hinput, Option.isSome_none,
      Bool.false_eq_true, if_false, bind, Except.bind, Except.ok.injEq] at hok
    subst hok
    by_cases hfil : (alookup maps.filter (jsCamelize rel.name)).isSome = true <;>
      simp only [hfil, if_true, if_false, Bool.false_eq_true] <;>
      exact ⟨alookup_dinsert_self _ _ _, alookup_dinsert_self _ _ _, rfl⟩

/-- Witness for C3 at the concrete toMany relationship. -/
theorem claimC3_relationship_wrapping_witness :
    alookup demoRelTagsAfter.base "tags" =
      some ⟨MagqlType.list (.named "Tag"), [], some plainResolverId⟩ ∧
    (MagqlType.list (.named "Tag")).isNonNull = false :=
  (claimC3_relationship_wrapping demoEmptyMaps demoRelTags demoRelTagsAfter "Int"
    rfl rfl rfl rfl rfl).1 rfl

/-- C7: the relationship input and required-input field types come from the
target's primary-key Python type through the str, int, bool, float mapping;
any other primary-key type raises the hard KeyError; the scalar is
List-wrapped when the relationship is toMany, and NonNull-wrapped on the
required-input variant exactly when the relationship is toOne and
required. -/
theorem claimC7_rel_input_scalar_mapping (maps : ManagerTypes) (rel : MRel) :
    (inputFieldTypes PyType.str = some "String" ∧
     inputFieldTypes PyType.int = some "Int" ∧
     inputFieldTypes PyType.bool = some "Boolean" ∧
     inputFieldTypes PyType.float = some "Float" ∧
     ∀ d, inputFieldTypes (PyType.other d) = none) ∧
    (inputFieldTypes rel.targetPkPyType = none →
      addRelsStep maps rel =
        Except.error "The value set as the primary key for the relationship is not valid") ∧
    (∀ ft maps', inputFieldTypes rel.targetPkPyType = some ft →
      alookup maps.input (jsCamelize rel.name) = none →
      alookup maps.inputRequired (jsCamelize rel.name) = none →
      addRelsStep maps rel = Except.ok maps' →
      (hasTOMANY rel.direction = true →
        alookup maps'.input (jsCamelize rel.name) = some (MagqlType.list (.named ft)) ∧
        alookup maps'.inputRequired (jsCamelize rel.name) =
          some (MagqlType.list (.named ft))) ∧
      (hasTOMANY rel.direction = false →
        alookup maps'.input (jsCamelize rel.name) = some (MagqlType.named ft) ∧
        alookup maps'.inputRequired (jsCamelize rel.name) =
          some (if rel.required = true then MagqlType.nonNull (.named ft)
            else MagqlType.named ft))) := by
  refine ⟨⟨rfl, rfl, rfl, rfl, fun d => rfl⟩, ?_, ?_⟩
  · intro hnone
    simp only [addRelsStep, hnone, bind, Except.bind]
  · intro ft maps' hft hinput hreq hok
    constructor
    · intro htm
      simp only [addRelsStep, hft, htm, if_true, hreq, hinput, Option.isSome_none,
        Bool.false_eq_true, if_false, bind, Except.bind, Except.ok.injEq] at hok
      subst hok
      by_cases hbase : (alookup maps.base (jsCamelize rel.name)).isSome = true <;>
        by_cases hfil : (alookup maps.filter (jsCamelize rel.name)).isSome = true <;>
        simp only [hbase, hfil, if_true, if_false, Bool.false_eq_true] <;>
        exact ⟨alookup_dinsert_self _ _ _, alookup_dinsert_self _ _ _⟩
    · intro htm
      by_cases hrq : rel.required = true
      · simp only [addRelsStep, hft, htm, hrq, if_true, hreq, hinput, Option.isSome_none,
          Bool.false_eq_true, if_false, bind, Except.bind, Except.ok.injEq] at hok
        subst hok
        simp only [hrq, if_true]
        by_cases hbase : (alookup maps.base (jsCamelize rel.name)).isSome = true <;>
          by_cases hfil : (alookup maps.filter (jsCamelize rel.name)).isSome = true <;>
          simp only [hbase, hfil, if_true, if_false, Bool.false_eq_true] <;>
          exact ⟨alookup_dinsert_self _ _ _, alookup_dinsert_self _ _ _⟩
      · simp only [addRelsStep, hft, htm, hrq, if_true, hreq, hinput, Option.isSome_none,
          Bool.false_eq_true, if_false, bind, Except.bind, Except.ok.injEq] at hok
        subst hok
        simp only [hrq, if_false]
        by_cases hbase : (alookup maps.base (jsCamelize rel.name)).isSome = true <;>
          by_cases hfil : (alookup maps.filter (jsCamelize rel.name)).isSome = true <;>
          simp only [hbase, hfil, if_true, if_false, Bool.false_eq_true] <;>
          exact ⟨alookup_dinsert_self _ _ _, alookup_dinsert_self _ _ _⟩

/-- Witness for C7: the invalid key type raises the KeyError, and the valid
toOne required relationship produces the NonNull-wrapped scalar. -/
theorem claimC7_rel_input_scalar_mapping_witness :
    addRelsStep demoEmptyMaps demoRelBad =
      Except.error "The value set as the primary key for the relationship is not valid" ∧
    alookup demoRelOwnerAfter.input "owner" = some (MagqlType.named "Int") := by
  refine ⟨(claimC7_rel_input_scalar_mapping demoEmptyMaps demoRelBad).2.1 rfl, ?_⟩
  have h := ((claimC7_rel_input_scalar_mapping demoEmptyMaps demoRelOwner).2.2
    "Int" demoRelOwnerAfter rfl rfl rfl rfl).2 (by decide)
  exact h.1

/-- C6 counterexample: relationship wiring does not always leave a
pre-existing field untouched — the wiring loop of MagqlSchema.__init__
(convert.py) unconditionally reassigns the object field of the
relationship's name, replacing the pre-existing column field. -/
theorem claimC6_counterexample :
    alookup demoConvertNodes.object "tags" = some demoPreField ∧
    alookup (convertWireRel demoConvertNodes "tags" "ONETOMANY" false
      (GType.object "Tag" [])).object "tags" ≠ some demoPreField := by
  refine ⟨rfl, ?_⟩
  intro h
  have h2 : (some (some plainResolverId) : Option (Option Nat)) = some none :=
    congrArg (Option.map GField.resolve) h
  exact absurd h2 (by decide)

/-- C6 (amended): relationship wiring through manager.py's add_rels never
overwrites — a field of the relationship's name already present on any of
the four nodes (object, input, required-input, filter) is left unchanged —
while the legacy wiring loop of MagqlSchema.__init__ (convert.py)
unconditionally reassigns all four fields of that name, installing the
freshly built relationship field regardless of any pre-existing field. -/
theorem claimC6_wiring_never_overwrites
    (maps : ManagerTypes) (rel : MRel) (maps' : ManagerTypes)
    (hok : addRelsStep maps rel = Except.ok maps') :
    (∀ f, alookup maps.base (jsCamelize rel.name) = some f →
      alookup maps'.base (jsCamelize rel.name) = some f) ∧
    (∀ t, alookup maps.input (jsCamelize rel.name) = some t →
      alookup maps'.input (jsCamelize rel.name) = some t) ∧
    (∀ t, alookup maps.inputRequired (jsCamelize rel.name) = some t →
      alookup maps'.inputRequired (jsCamelize rel.name) = some t) ∧
    (∀ t, alookup maps.filter (jsCamelize rel.name) = some t →
      alookup maps'.filter (jsCamelize rel.name) = some t) ∧
    (∀ nodes rn d rq tobj,
      alookup (convertWireRel nodes rn d rq tobj).object (jsCamelize rn) =
        some (GField.mk (if hasTOMANY d = true then GType.list tobj else tobj) []
          (some plainResolverId))) := by
  rcases hpk : inputFieldTypes rel.targetPkPyType with _ | ft
  · simp only [addRelsStep, hpk, bind, Except.bind] at hok
    exact absurd hok (by simp)
  · simp only [addRelsStep, hpk, bind, Except.bind, Except.ok.injEq] at hok
    subst hok
    by_cases h1 : (alookup maps.inputRequired (jsCamelize rel.name)).isSome = true <;>
      by_cases h2 : (alookup maps.input (jsCamelize rel.name)).isSome = true <;>
      by_cases h3 : (alookup maps.base (jsCamelize rel.name)).isSome = true <;>
      by_cases h4 : (alookup maps.filter (jsCamelize rel.name)).isSome = true <;>
      simp only [h1, h2, h3, h4, if_true, if_false, Bool.false_eq_true] <;>
      refine ⟨?_, ?_, ?_, ?_, ?_⟩ <;>
      first
        | (intro v hv
           first
             | exact hv
             | (exfalso
                first
                  | exact absurd (by simp [hv] : (alookup maps.base
                      (jsCamelize rel.name)).isSome = true) h3
                  | exact absurd (by simp [hv] : (alookup maps.input
                      (jsCamelize rel.name)).isSome = true) h2
                  | exact absurd (by simp [hv] : (alookup maps.inputRequired
                      (jsCamelize rel.name)).isSome = true) h1
                  | exact absurd (by simp [hv] : (alookup maps.filter
                      (jsCamelize rel.name)).isSome = true) h4))
        | (intro nodes rn d rq tobj
           by_cases htm : hasTOMANY d = true <;>
             simp only [convertWireRel, htm, if_true, if_false, Bool.false_eq_true] <;>
             first
               | exact alookup_dinsert_self _ _ _
               | (by_cases hd : rq = true <;>
                   simp only [hd, if_true, if_false, Bool.false_eq_true] <;>
                   exact alookup_dinsert_self _ _ _))

/-- Witness for the amended C6 at a concrete wiring collision. -/
theorem claimC6_wiring_never_overwrites_witness :
    alookup demoPreMapsAfter.base "tags" =
      some ⟨MagqlType.named "String", [], none⟩ :=
  (claimC6_wiring_never_overwrites demoPreMaps demoRelTags demoPreMapsAfter rfl).1 _ rfl

theorem dinsertAll_nil {β : Type} (acc : List (String × β)) : dinsertAll acc [] = acc := rfl

theorem dinsertAll_append {β : Type} (acc : List (String × β)) (e1 e2 : List (String × β)) :
    dinsertAll acc (e1 ++ e2) = dinsertAll (dinsertAll acc e1) e2 := by
  simp [dinsertAll, List.foldl_append]

theorem dinsertAll_eq {β : Type} (es : List (String × β)) :
    ∀ acc : List (String × β), (keysOf acc ++ keysOf es).Nodup →
      dinsertAll acc es = acc ++ es := by
  induction es with
  | nil => intro acc _; simp [dinsertAll]
  | cons e rest ih =>
    intro acc h
    obtain ⟨k, v⟩ := e
    have hdisj : (keysOf acc).Disjoint (keysOf ((k, v) :: rest)) :=
      (List.nodup_append.mp h).2.2
    have hk : alookup acc k = none := by
      rw [alookup_eq_none_iff]
      intro hmem
      exact hdisj hmem (by simp [keysOf])
    have hstep : dinsertAll acc ((k, v) :: rest) = dinsertAll (acc ++ [(k, v)]) rest := by
      simp [dinsertAll, dinsert_of_none v hk]
    rw [hstep, ih (acc ++ [(k, v)]) ?_]
    · simp
    · simpa [keysOf, List.append_assoc] using h

theorem genTypes_foldl_proj (cols : List MColumn) : ∀ acc : ManagerTypes,
    List.foldl generateTypesStep acc cols =
      ⟨dinsertAll acc.base (cols.flatMap gBaseEntries),
       dinsertAll acc.input (cols.flatMap gInputEntries),
       dinsertAll acc.inputRequired (cols.flatMap gInputReqEntries),
       dinsertAll acc.filter (cols.flatMap gFilterEntries),
       dinsertAll acc.sortValues (cols.flatMap gSortEntries)⟩ := by
  induction cols with
  | nil => intro acc; simp [dinsertAll]
  | cons c rest ih =>
    intro acc
    rw [List.foldl_cons, ih]
    by_cases hfk : c.foreignKey <;>
      by_cases hpk : c.primaryKey <;>
      by_cases he : c.magqlType.isEnumT <;>
      simp [generateTypesStep, gBaseEntries, gInputEntries, gInputReqEntries,
        gFilterEntries, gSortEntries, dinsertAll, hfk, hpk, he, List.foldl_append]

theorem buildFields_foldl_proj (cols : List GColumn) : ∀ acc : ColumnFields,
    List.foldl buildFieldsStep acc cols =
      ⟨dinsertAll acc.fields (cols.flatMap cFieldEntries),
       dinsertAll acc.filterFields (cols.flatMap cFilterEntries),
       dinsertAll acc.sortFields (cols.flatMap cSortEntries),
       dinsertAll acc.requiredInputFields (cols.flatMap cReqEntries),
       dinsertAll acc.inputFields (cols.flatMap cInputEntries)⟩ := by
  induction cols with
  | nil => intro acc; simp [dinsertAll]
  | cons c rest ih =>
    intro acc
    rw [List.foldl_cons, ih]
    by_cases hfk : c.foreignKey <;>
      by_cases he : c.gqlType.isEnum <;>
      simp [buildFieldsStep, cFieldEntries, cFilterEntries, cSortEntries, cReqEntries,
        cInputEntries, dinsertAll, hfk, he, List.foldl_append, GField.withResolve]

theorem keys_gBase (cols : List MColumn) :
    keysOf (cols.flatMap gBaseEntries) =
      (cols.filter fun c => !c.foreignKey).map (fun c => jsCamelize c.name) := by
  induction cols with
  | nil => rfl
  | cons c rest ih =>
    simp only [keysOf] at ih
    by_cases h : c.foreignKey <;> simp [gBaseEntries, keysOf, h, ih]

theorem keys_gFilter (cols : List MColumn) :
    keysOf (cols.flatMap gFilterEntries) =
      (cols.filter fun c => !c.foreignKey).map (fun c => jsCamelize c.name) := by
  induction cols with
  | nil => rfl
  | cons c rest ih =>
    simp only [keysOf] at ih
    by_cases h : c.foreignKey <;> simp [gFilterEntries, keysOf, h, ih]

theorem keys_gSort (cols : List MColumn) :
    keysOf (cols.flatMap gSortEntries) =
      (cols.filter fun c => !c.foreignKey).flatMap (fun c =>
        [jsCamelize c.name ++ "_asc", jsCamelize c.name ++ "_desc"]) := by
  induction cols with
  | nil => rfl
  | cons c rest ih =>
    simp only [keysOf] at ih
    by_cases h : c.foreignKey <;> simp [gSortEntries, keysOf, h, ih]

theorem keys_gInput (cols : List MColumn) :
    keysOf (cols.flatMap gInputEntries) =
      (cols.filter fun c => !c.primaryKey && !c.foreignKey).map
        (fun c => jsCamelize c.name) := by
  induction cols with
  | nil => rfl
  | cons c rest ih =>
    simp only [keysOf] at ih
    by_cases h : c.foreignKey <;> by_cases hp : c.primaryKey <;>
      simp [gInputEntries, keysOf, h, hp, ih]

theorem keys_gInputReq (cols : List MColumn) :
    keysOf (cols.flatMap gInputReqEntries) =
      (cols.filter fun c => !c.primaryKey && !c.foreignKey).map
        (fun c => jsCamelize c.name) := by
  induction cols with
  | nil => rfl
  | cons c rest ih =>
    simp only [keysOf] at ih
    by_cases h : c.foreignKey <;> by_cases hp : c.primaryKey <;>
      simp [gInputReqEntries, keysOf, h, hp, ih]

theorem keys_cField (cols : List GColumn) :
    keysOf (cols.flatMap cFieldEntries) =
      (cols.filter fun c => !c.foreignKey).map (fun c => jsCamelize c.name) := by
  induction cols with
  | nil => rfl
  | cons c rest ih =>
    simp only [keysOf] at ih
    by_cases h : c.foreignKey <;> simp [cFieldEntries, keysOf, h, ih]

theorem keys_cReq (cols : List GColumn) :
    keysOf (cols.flatMap cReqEntries) =
      (cols.filter fun c => !c.foreignKey).map (fun c => jsCamelize c.name) := by
  induction cols with
  | nil => rfl
  | cons c rest ih =>
    simp only [keysOf] at ih
    by_cases h : c.foreignKey <;> simp [cReqEntries, keysOf, h, ih]

theorem keys_cInput (cols : List GColumn) :
    keysOf (cols.flatMap cInputEntries) =
      (cols.filter fun c => !c.foreignKey).map (fun c => jsCamelize c.name) := by
  induction cols with
  | nil => rfl
  | cons c rest ih =>
    simp only [keysOf] at ih
    by_cases h : c.foreignKey <;> simp [cInputEntries, keysOf, h, ih]

theorem keys_cFilter (cols : List GColumn) :
    keysOf (cols.flatMap cFilterEntries) =
      (cols.filter fun c => !c.foreignKey).map (fun c => jsCamelize c.name) := by
  induction cols with
  | nil => rfl
  | cons c rest ih =>
    simp only [keysOf] at ih
    by_cases h : c.foreignKey <;> simp [cFilterEntries, keysOf, h, ih]

theorem keys_cSort (cols : List GColumn) :
    keysOf (cols.flatMap cSortEntries) =
      (cols.filter fun c => !c.foreignKey).flatMap (fun c =>
        [jsCamelize c.name ++ "_asc", jsCamelize c.name ++ "_desc"]) := by
  induction cols with
  | nil => rfl
  | cons c rest ih =>
    simp only [keysOf] at ih
    by_cases h : c.foreignKey <;> simp [cSortEntries, keysOf, h, ih]

/-- C5 counterexample: the claim promises one input field per
non-foreign-key column, but for the concrete two-column table with an id
primary key the Input node built by generate_types (manager.py) carries
only the name field — primary-key columns contribute no input field. -/
theorem claimC5_counterexample :
    ((demoCols.filter fun c => !c.foreignKey).map fun c => jsCamelize c.name) =
      ["id", "name"] ∧
    keysOf (managerGenerateTypes demoCols).input = ["name"] ∧
    keysOf (managerGenerateTypes demoCols).input ≠
      ((demoCols.filter fun c => !c.foreignKey).map fun c => jsCamelize c.name) := by
  refine ⟨by decide, by decide, by decide⟩

/-- C5 (amended): the object, filter and sort nodes carry exactly one field
(one value pair for sort) per non-foreign-key column, keyed by the
camel-cased column name, in both builders; the input and required-input
nodes carry one field per non-foreign-key column in convert.py's
build_fields_from_column, but only per non-foreign-key, non-primary-key
column in manager.py's generate_types; foreign-key columns contribute
nothing anywhere. -/
theorem claimC5_five_nodes_per_column (cols : List MColumn) (gcols : List GColumn)
    (h1 : (((cols.filter fun c => !c.foreignKey).map fun c => jsCamelize c.name)).Nodup)
    (h2 : ((cols.filter fun c => !c.foreignKey).flatMap fun c =>
      [jsCamelize c.name ++ "_asc", jsCamelize c.name ++ "_desc"]).Nodup)
    (h3 : (((gcols.filter fun c => !c.foreignKey).map fun c => jsCamelize c.name)).Nodup)
    (h4 : ((gcols.filter fun c => !c.foreignKey).flatMap fun c =>
      [jsCamelize c.name ++ "_asc", jsCamelize c.name ++ "_desc"]).Nodup) :
    keysOf (managerGenerateTypes cols).base =
      (cols.filter fun c => !c.foreignKey).map (fun c => jsCamelize c.name) ∧
    keysOf (managerGenerateTypes cols).filter =
      (cols.filter fun c => !c.foreignKey).map (fun c => jsCamelize c.name) ∧
    keysOf (managerGenerateTypes cols).sortValues =
      (cols.filter fun c => !c.foreignKey).flatMap (fun c =>
        [jsCamelize c.name ++ "_asc", jsCamelize c.name ++ "_desc"]) ∧
    keysOf (managerGenerateTypes cols).input =
      (cols.filter fun c => !c.primaryKey && !c.foreignKey).map
        (fun c => jsCamelize c.name) ∧
    keysOf (managerGenerateTypes cols).inputRequired =
      (cols.filter fun c => !c.primaryKey && !c.foreignKey).map
        (fun c => jsCamelize c.name) ∧
    keysOf (buildFieldsFromColumn gcols).fields =
      (gcols.filter fun c => !c.foreignKey).map (fun c => jsCamelize c.name) ∧
    keysOf (buildFieldsFromColumn gcols).requiredInputFields =
      (gcols.filter fun c => !c.foreignKey).map (fun c => jsCamelize c.name) ∧
    keysOf (buildFieldsFromColumn gcols).inputFields =
      (gcols.filter fun c => !c.foreignKey).map (fun c => jsCamelize c.name) ∧
    keysOf (buildFieldsFromColumn gcols).filterFields =
      (gcols.filter fun c => !c.foreignKey).map (fun c => jsCamelize c.name) ∧
    keysOf (buildFieldsFromColumn gcols).sortFields =
      (gcols.filter fun c => !c.foreignKey).flatMap (fun c =>
        [jsCamelize c.name ++ "_asc", jsCamelize c.name ++ "_desc"]) := by
  have hins : ∀ {β : Type} (es : List (String × β)), (keysOf es).Nodup →
      dinsertAll [] es = es := by
    intro β es h
    simpa using dinsertAll_eq es [] (by simpa [keysOf] using h)
  have hm := genTypes_foldl_proj cols ⟨[], [], [], [], []⟩
  have hc := buildFields_foldl_proj gcols ⟨[], [], [], [], []⟩
  have hpksub : ((cols.filter fun c => !c.primaryKey && !c.foreignKey).map
      fun c => jsCamelize c.name).Nodup := by
    apply h1.sublist
    apply List.Sublist.map
    rw [← List.filter_filter]
    exact List.filter_sublist _
  have hb : (managerGenerateTypes cols).base = cols.flatMap gBaseEntries := by
    simp only [managerGenerateTypes]
    rw [hm]
    exact hins _ (by rw [keys_gBase]; exact h1)
  have hf : (managerGenerateTypes cols).filter = cols.flatMap gFilterEntries := by
    simp only [managerGenerateTypes]
    rw [hm]
    exact hins _ (by rw [keys_gFilter]; exact h1)
  have hs : (managerGenerateTypes cols).sortValues = cols.flatMap gSortEntries := by
    simp only [managerGenerateTypes]
    rw [hm]
    exact hins _ (by rw [keys_gSort]; exact h2)
  have hi : (managerGenerateTypes cols).input = cols.flatMap gInputEntries := by
    simp only [managerGenerateTypes]
    rw [hm]
    exact hins _ (by rw [keys_gInput]; exact hpksub)
  have hir : (managerGenerateTypes cols).inputRequired = cols.flatMap gInputReqEntries := by
    simp only [managerGenerateTypes]
    rw [hm]
    exact hins _ (by rw [keys_gInputReq]; exact hpksub)
  have hcf : (buildFieldsFromColumn gcols).fields = gcols.flatMap cFieldEntries := by
    simp only [buildFieldsFromColumn]
    rw [hc]
    exact hins _ (by rw [keys_cField]; exact h3)
  have hcr : (buildFieldsFromColumn gcols).requiredInputFields =
      gcols.flatMap cReqEntries := by
    simp only [buildFieldsFromColumn]
    rw [hc]
    exact hins _ (by rw [keys_cReq]; exact h3)
  have hci : (buildFieldsFromColumn gcols).inputFields = gcols.flatMap cInputEntries := by
    simp only [buildFieldsFromColumn]
    rw [hc]
    exact hins _ (by rw [keys_cInput]; exact h3)
  have hcfl : (buildFieldsFromColumn gcols).filterFields = gcols.flatMap cFilterEntries := by
    simp only [buildFieldsFromColumn]
    rw [hc]
    exact hins _ (by rw [keys_cFilter]; exact h3)
  have hcs : (buildFieldsFromColumn gcols).sortFields = gcols.flatMap cSortEntries := by
    simp only [buildFieldsFromColumn]
    rw [hc]
    exact hins _ (by rw [keys_cSort]; exact h4)
  exact ⟨by rw [hb]; exact keys_gBase cols,
    by rw [hf]; exact keys_gFilter cols,
    by rw [hs]; exact keys_gSort cols,
    by rw [hi]; exact keys_gInput cols,
    by rw [hir]; exact keys_gInputReq cols,
    by rw [hcf]; exact keys_cField gcols,
    by rw [hcr]; exact keys_cReq gcols,
    by rw [hci]; exact keys_cInput gcols,
    by rw [hcfl]; exact keys_cFilter gcols,
    by rw [hcs]; exact keys_cSort gcols⟩

/-- Witness for the amended C5 at the concrete two-column table. -/
theorem claimC5_five_nodes_per_column_witness :
    keysOf (managerGenerateTypes demoCols).base = ["id", "name"] ∧
    keysOf (managerGenerateTypes demoCols).input = ["name"] := by
  have h := claimC5_five_nodes_per_column demoCols demoGCols
    (by decide) (by decide) (by decide) (by decide)
  exact ⟨by rw [h.1]; decide, by rw [h.2.2.2.1]; decide⟩

theorem getMerged_round_trip : ∀ (t : GType) (m : List (String × GType)),
    getMergedObjectType t m = applyWrappers (wrapperStack t) (substNamed m (baseOf t))
  | .list i, m => by
    simp [getMergedObjectType, wrapperStack, baseOf, applyWrappers, getMerged_round_trip i m]
  | .nonNull i, m => by
    simp [getMergedObjectType, wrapperStack, baseOf, applyWrappers, getMerged_round_trip i m]
  | .scalar n, m => by
    simp [getMergedObjectType, wrapperStack, baseOf, applyWrappers, substNamed]
  | .enum n vs, m => by
    simp [getMergedObjectType, wrapperStack, baseOf, applyWrappers, substNamed]
  | .object n fs, m => by
    simp [getMergedObjectType, wrapperStack, baseOf, applyWrappers, substNamed]
  | .inputObject n fs, m => by
    simp [getMergedObjectType, wrapperStack, baseOf, applyWrappers, substNamed]

theorem gen_base_round_trip (t : GType) (m : List (String × GType)) (r : GType)
    (hb : wrapperStack t = []) (h : generateNewReturnType t m = Except.ok r) :
    wrapperStack r = [] ∧ (baseOf r).nameOf = (substNamed m t).nameOf := by
  have hdo : generateNewReturnType t m =
      ((substNamed m t).fieldsOf.bind (fun fs =>
        Except.ok ((substNamed m t).setFields (fs.map (fun p =>
          if (alookup m (getObjectType p.2.type).nameOf).isSome then
            (p.1, p.2.withType (getMergedObjectType p.2.type m))
          else p))))) := by
    cases t with
    | list i => simp [wrapperStack] at hb
    | nonNull i => simp [wrapperStack] at hb
    | scalar n => simp [generateNewReturnType, substNamed, bind, Except.bind]
    | enum n vs => simp [generateNewReturnType, substNamed, bind, Except.bind]
    | object n fs => simp [generateNewReturnType, substNamed, bind, Except.bind]
    | inputObject n fs => simp [generateNewReturnType, substNamed, bind, Except.bind]
  rw [hdo] at h
  rcases hfs : (substNamed m t).fieldsOf with e | fs
  · rw [hfs] at h
    simp [Except.bind] at h
  · rw [hfs] at h
    simp only [Except.bind, Except.ok.injEq] at h
    subst h
    rcases hsn : substNamed m t with n | ⟨n, vs⟩ | ⟨n, fs'⟩ | ⟨n, fs'⟩ | i | i <;>
      rw [hsn] at hfs <;>
      first
        | (refine ⟨?_, ?_⟩ <;> simp [GType.setFields, wrapperStack, baseOf, GType.nameOf] <;>
            done)
        | exact absurd hfs (by simp [GType.fieldsOf])

theorem gen_round_trip : ∀ (t : GType) (m : List (String × GType)) (r : GType),
    generateNewReturnType t m = Except.ok r →
    wrapperStack r = wrapperStack t ∧
    (baseOf r).nameOf = (substNamed m (baseOf t)).nameOf
  | .list i, m, r => by
    intro h
    rcases hg : generateNewReturnType i m with e | r'
    · rw [generateNewReturnType, hg] at h
      simp [Except.map] at h
    · rw [generateNewReturnType, hg] at h
      simp only [Except.map, Except.ok.injEq] at h
      subst h
      have ih := gen_round_trip i m r' hg
      exact ⟨by simp [wrapperStack, ih.1], by simpa [baseOf] using ih.2⟩
  | .nonNull i, m, r => by
    intro h
    rcases hg : generateNewReturnType i m with e | r'
    · rw [generateNewReturnType, hg] at h
      simp [Except.map] at h
    · rw [generateNewReturnType, hg] at h
      simp only [Except.map, Except.ok.injEq] at h
      subst h
      have ih := gen_round_trip i m r' hg
      exact ⟨by simp [wrapperStack, ih.1], by simpa [baseOf] using ih.2⟩
  | .scalar n, m, r => fun h => gen_base_round_trip _ m r rfl h
  | .enum n vs, m, r => fun h => gen_base_round_trip _ m r rfl h
  | .object n fs, m, r => fun h => gen_base_round_trip _ m r rfl h
  | .inputObject n fs, m, r => fun h => gen_base_round_trip _ m r rfl h

/-- C2: both merge rewriters preserve the wrapper stack exactly — for every
return type built from a stack of List and NonNull wrappers around a named
type, get_merged_object_type returns precisely the same wrapper stack
reapplied around the substituted image of the innermost type (the joined
map's binding when the name is bound, the type itself otherwise), and
generate_new_return_type, whenever it succeeds, returns a type with the
identical wrapper stack whose innermost type carries the substituted
image's name. -/
theorem claimC2_wrapper_round_trip (t : GType) (m : List (String × GType)) :
    getMergedObjectType t m = applyWrappers (wrapperStack t) (substNamed m (baseOf t)) ∧
    ∀ r, generateNewReturnType t m = Except.ok r →
      wrapperStack r = wrapperStack t ∧
      (baseOf r).nameOf = (substNamed m (baseOf t)).nameOf :=
  ⟨getMerged_round_trip t m, fun r h => gen_round_trip t m r h⟩

/-- Concrete wrapped type used for the C2 witness. -/
def demoWrapped : GType := .list (.nonNull (.list (.scalar "User")))

/-- Concrete joined type map used for the C2 witness. -/
def demoJoinedMap : List (String × GType) := [("User", .object "User" [])]

/-- Witness for C2 at the concrete List(NonNull(List(User))) type. -/
theorem claimC2_wrapper_round_trip_witness :
    getMergedObjectType demoWrapped demoJoinedMap =
      applyWrappers (wrapperStack demoWrapped)
        (substNamed demoJoinedMap (baseOf demoWrapped)) ∧
    wrapperStack (GType.list (.nonNull (.list (.object "User" [])))) =
      wrapperStack demoWrapped :=
  ⟨(claimC2_wrapper_round_trip demoWrapped demoJoinedMap).1,
   (((claimC2_wrapper_round_trip demoWrapped demoJoinedMap).2
     (GType.list (.nonNull (.list (.object "User" [])))) rfl)).1⟩

theorem joinTypes_fieldMaps (t1 t2 : GType) (fs1 fs2 : List (String × GField))
    (hf1 : t1.fieldsOf = Except.ok fs1) (hf2 : t2.fieldsOf = Except.ok fs2) :
    joinTypes t1 t2 =
      if fs2.any (fun p => (alookup fs1 p.1).isSome) then
        Except.error "Duplicate fields in type, cannot resolve"
      else Except.ok (.object t1.nameOf (fs1 ++ fs2)) := by
  by_cases h : fs2.any (fun p => (alookup fs1 p.1).isSome) = true <;>
    simp [joinTypes, hf1, hf2, bind, Except.bind, h]

theorem joinTypes_error_of_fieldless (t1 t2 : GType)
    (h : (∃ e, t1.fieldsOf = Except.error e) ∨ (∃ e, t2.fieldsOf = Except.error e)) :
    ∃ e, joinTypes t1 t2 = Except.error e := by
  rcases h with ⟨e, he⟩ | ⟨e, he⟩
  · exact ⟨e, by simp [joinTypes, he, bind, Except.bind]⟩
  · rcases hf1 : t1.fieldsOf with e1 | fs1
    · exact ⟨e1, by simp [joinTypes, hf1, bind, Except.bind]⟩
    · exact ⟨e, by simp [joinTypes, hf1, he, bind, Except.bind]⟩

theorem shared_field_any (fs1 fs2 : List (String × GField)) :
    (∃ fn, fn ∈ keysOf fs1 ∧ fn ∈ keysOf fs2) ↔
      fs2.any (fun p => (alookup fs1 p.1).isSome) = true := by
  constructor
  · rintro ⟨fn, hf1, hf2⟩
    rw [List.any_eq_true]
    obtain ⟨p, hp, hfst⟩ := List.mem_map.mp hf2
    refine ⟨p, hp, ?_⟩
    rw [alookup_isSome_iff, hfst]
    exact hf1
  · intro h
    obtain ⟨p, hp, hsome⟩ := List.any_eq_true.mp h
    exact ⟨p.1, (alookup_isSome_iff _ _).mp hsome, List.mem_map_of_mem _ hp⟩

theorem buildJoined_error_of_mem (selfMap : List (String × GType)) :
    ∀ (l : List (String × GType)) (n : String) (t1 t2 : GType),
    (n, t2) ∈ l → alookup selfMap n = some t1 → t2.isScalar = false →
    startsWithDunder n = false → (∃ e, joinTypes t1 t2 = Except.error e) →
    ∃ e, buildJoinedTypeMap selfMap l = Except.error e := by
  intro l
  induction l with
  | nil => intro n t1 t2 hmem; simp at hmem
  | cons p rest ih =>
    intro n t1 t2 hmem h1 hsc hd hj
    obtain ⟨a, b⟩ := p
    rcases List.mem_cons.mp hmem with heq | hmem'
    · obtain ⟨hn, ht⟩ := Prod.mk.injEq .. ▸ heq
      subst hn
      subst ht
      obtain ⟨e, hje⟩ := hj
      rw [buildJoinedTypeMap, h1]
      simp only [hsc, hd, Bool.not_false, Bool.and_self, if_true, hje, bind, Except.bind]
      exact ⟨e, rfl⟩
    · rw [buildJoinedTypeMap]
      rcases halk : alookup selfMap a with _ | t1'
      · exact ih n t1 t2 hmem' h1 hsc hd hj
      · by_cases hcond : (!b.isScalar && !startsWithDunder a) = true
        · simp only [hcond, if_true]
          rcases hjab : joinTypes t1' b with e' | j
          · exact ⟨e', by simp [hjab, Except.bind, bind]⟩
          · obtain ⟨e, hrest⟩ := ih n t1 t2 hmem' h1 hsc hd hj
            exact ⟨e, by simp [hjab, hrest, Except.bind, bind]⟩
        · simp only [hcond, Bool.false_eq_true, if_false]
          exact ih n t1 t2 hmem' h1 hsc hd hj

theorem buildJoined_ok_lookup (selfMap : List (String × GType)) :
    ∀ (l : List (String × GType)) (n : String) (t1 t2 j : GType)
      (jm : List (String × GType)),
    buildJoinedTypeMap selfMap l = Except.ok jm →
    alookup l n = some t2 → alookup selfMap n = some t1 →
    t2.isScalar = false → startsWithDunder n = false →
    joinTypes t1 t2 = Except.ok j →
    alookup jm n = some j := by
  intro l
  induction l with
  | nil => intro n t1 t2 j jm _ hl; simp [alookup] at hl
  | cons p rest ih =>
    intro n t1 t2 j jm hok hl h1 hsc hd hj
    obtain ⟨a, b⟩ := p
    rw [alookup] at hl
    by_cases han : a = n
    · subst han
      rw [if_pos rfl] at hl
      injection hl with hl
      subst hl
      rw [buildJoinedTypeMap, h1] at hok
      simp only [hsc, hd, Bool.not_false, Bool.and_self, if_true, bind, Except.bind,
        hj] at hok
      rcases hrest : buildJoinedTypeMap selfMap rest with e | m
      · rw [hrest] at hok
        exact absurd hok (by simp)
      · rw [hrest] at hok
        simp only [Except.ok.injEq] at hok
        subst hok
        simp [alookup]
    · rw [if_neg han] at hl
      rw [buildJoinedTypeMap] at hok
      rcases halk : alookup selfMap a with _ | t1'
      · simp only [halk] at hok
        exact ih n t1 t2 j jm hok hl h1 hsc hd hj
      · simp only [halk] at hok
        by_cases hcond : (!b.isScalar && !startsWithDunder a) = true
        · rw [if_pos hcond] at hok
          rcases hjab : joinTypes t1' b with e' | j'
          · rw [hjab] at hok
            simp [bind, Except.bind] at hok
          · rw [hjab] at hok
            rcases hrest : buildJoinedTypeMap selfMap rest with e | m
            · rw [hrest] at hok
              simp [bind, Except.bind] at hok
            · rw [hrest] at hok
              simp only [bind, Except.bind, Except.ok.injEq] at hok
              subst hok
              rw [alookup, if_neg han]
              exact ih n t1 t2 j m hrest hl h1 hsc hd hj
        · rw [if_neg hcond] at hok
          exact ih n t1 t2 j jm hok hl h1 hsc hd hj

theorem mergeSchema_error_of_joined (s1 s2 : Schema) (e : String)
    (h : buildJoinedTypeMap s1.typeMap s2.typeMap = Except.error e) :
    mergeSchema s1 s2 = Except.error e := by
  simp [mergeSchema, h, bind, Except.bind]

/-- C1 (amended): for every type name bound in both schemas' registries,
the incoming binding not a scalar and the name not introspection-reserved:
when both same-named types carry field maps (object or input-object types),
the merge raises the hard duplicate-field build error exactly when the two
types share a field name, and otherwise the merged type for that name is an
object type whose field map is exactly S1's fields in original order
followed by S2's fields in original order, bound under the name in the
joined type map; when either same-named type carries no field map (an enum
type, for example), the merge raises a hard build error (the Python
AttributeError) regardless of field sharing. -/
theorem claimC1_merge_field_union (s1 s2 : Schema) (n : String) (t1 t2 : GType)
    (h1 : alookup s1.typeMap n = some t1)
    (h2 : alookup s2.typeMap n = some t2)
    (hsc : t2.isScalar = false)
    (hd : startsWithDunder n = false) :
    (∀ fs1 fs2, t1.fieldsOf = Except.ok fs1 → t2.fieldsOf = Except.ok fs2 →
      ((∃ fn, fn ∈ keysOf fs1 ∧ fn ∈ keysOf fs2) →
        ∃ e, mergeSchema s1 s2 = Except.error e) ∧
      ((¬∃ fn, fn ∈ keysOf fs1 ∧ fn ∈ keysOf fs2) →
        joinTypes t1 t2 = Except.ok (.object t1.nameOf (fs1 ++ fs2)) ∧
        ∀ jm, buildJoinedTypeMap s1.typeMap s2.typeMap = Except.ok jm →
          alookup jm n = some (.object t1.nameOf (fs1 ++ fs2)))) ∧
    (((∃ e, t1.fieldsOf = Except.error e) ∨ (∃ e, t2.fieldsOf = Except.error e)) →
      ∃ e, mergeSchema s1 s2 = Except.error e) := by
  constructor
  · intro fs1 fs2 hf1 hf2
    constructor
    · intro hshared
      have hany := (shared_field_any fs1 fs2).mp hshared
      have hjerr : joinTypes t1 t2 =
          Except.error "Duplicate fields in type, cannot resolve" := by
        rw [joinTypes_fieldMaps t1 t2 fs1 fs2 hf1 hf2, if_pos hany]
      obtain ⟨e, herr⟩ := buildJoined_error_of_mem s1.typeMap s2.typeMap n
        t1 t2 (alookup_mem h2) h1 hsc hd ⟨_, hjerr⟩
      exact ⟨e, mergeSchema_error_of_joined s1 s2 e herr⟩
    · intro hnone
      have hany : fs2.any (fun p => (alookup fs1 p.1).isSome) = false := by
        rcases h : fs2.any (fun p => (alookup fs1 p.1).isSome) with _ | _
        · rfl
        · exact absurd ((shared_field_any fs1 fs2).mpr h) hnone
      have hjok : joinTypes t1 t2 = Except.ok (.object t1.nameOf (fs1 ++ fs2)) := by
        rw [joinTypes_fieldMaps t1 t2 fs1 fs2 hf1 hf2, if_neg (by simp [hany])]
      exact ⟨hjok, fun jm hok =>
        buildJoined_ok_lookup s1.typeMap s2.typeMap n _ _ _ jm hok h2 h1 hsc hd hjok⟩
  · intro hfl
    obtain ⟨e', hjerr⟩ := joinTypes_error_of_fieldless t1 t2 hfl
    obtain ⟨e, herr⟩ := buildJoined_error_of_mem s1.typeMap s2.typeMap n t1 t2
      (alookup_mem h2) h1 hsc hd ⟨e', hjerr⟩
    exact ⟨e, mergeSchema_error_of_joined s1 s2 e herr⟩

/-- Primary schema of the merge witness: User has only the name field. -/
def demoMergeS1 : Schema :=
  { queryFields := []
    mutationFields := []
    typeMap := [("User", .object "User" [("name", .mk (.scalar "String") [] none)])] }

/-- Secondary schema of the merge witness: User has only the age field. -/
def demoMergeS2 : Schema :=
  { queryFields := []
    mutationFields := []
    typeMap := [("User", .object "User" [("age", .mk (.scalar "Int") [] none)])] }

/-- Secondary schema whose User duplicates the name field of S1's User. -/
def demoMergeS2dup : Schema :=
  { queryFields := []
    mutationFields := []
    typeMap := [("User", .object "User" [("name", .mk (.scalar "String") [] none)])] }

/-- Schema binding the name UserSort to an enum type, as the per-entity
Sort enums do in every assembled schema. -/
def demoEnumS1 : Schema :=
  ⟨[], [], [("UserSort", .enum "UserSort" [("name_asc", "name_asc")])]⟩

/-- Second schema binding the same name UserSort to an enum type with
different values. -/
def demoEnumS2 : Schema :=
  ⟨[], [], [("UserSort", .enum "UserSort" [("name_desc", "name_desc")])]⟩

/-- C1 counterexample: the name UserSort is present in both registries,
bound to enum types — not scalar, not introspection-reserved — and the two
bindings share no field name (enum types carry no field map at all), so the
claim promises the merged type with the union of both field maps; instead
the merge raises the hard AttributeError because join_types reads the
fields attribute that enum types lack. -/
theorem claimC1_counterexample :
    alookup demoEnumS1.typeMap "UserSort" =
      some (.enum "UserSort" [("name_asc", "name_asc")]) ∧
    alookup demoEnumS2.typeMap "UserSort" =
      some (.enum "UserSort" [("name_desc", "name_desc")]) ∧
    (GType.enum "UserSort" [("name_desc", "name_desc")]).isScalar = false ∧
    startsWithDunder "UserSort" = false ∧
    (GType.enum "UserSort" [("name_asc", "name_asc")]).fieldsOf =
      Except.error "AttributeError: no attribute fields" ∧
    mergeSchema demoEnumS1 demoEnumS2 =
      Except.error "AttributeError: no attribute fields" :=
  ⟨rfl, rfl, rfl, rfl, rfl, rfl⟩

/-- Witness for the amended C1: joining the disjoint User object types
yields the field union in order, merging with the duplicate-field schema
raises the error, and merging the enum-colliding schemas raises too. -/
theorem claimC1_merge_field_union_witness :
    joinTypes (.object "User" [("name", .mk (.scalar "String") [] none)])
        (.object "User" [("age", .mk (.scalar "Int") [] none)]) =
      Except.ok (.object "User"
        [("name", .mk (.scalar "String") [] none), ("age", .mk (.scalar "Int") [] none)]) ∧
    (∃ e, mergeSchema demoMergeS1 demoMergeS2dup = Except.error e) ∧
    (∃ e, mergeSchema demoEnumS1 demoEnumS2 = Except.error e) := by
  refine ⟨?_, ?_, ?_⟩
  · exact (((claimC1_merge_field_union demoMergeS1 demoMergeS2 "User"
      (.object "User" [("name", .mk (.scalar "String") [] none)])
      (.object "User" [("age", .mk (.scalar "Int") [] none)])
      rfl rfl rfl rfl).1
      [("name", .mk (.scalar "String") [] none)] [("age", .mk (.scalar "Int") [] none)]
      rfl rfl).2 (by simp [keysOf])).1
  · exact ((claimC1_merge_field_union demoMergeS1 demoMergeS2dup "User"
      (.object "User" [("name", .mk (.scalar "String") [] none)])
      (.object "User" [("name", .mk (.scalar "String") [] none)])
      rfl rfl rfl rfl).1
      [("name", .mk (.scalar "String") [] none)] [("name", .mk (.scalar "String") [] none)]
      rfl rfl).1 ⟨"name", by simp [keysOf], by simp [keysOf]⟩
  · exact (claimC1_merge_field_union demoEnumS1 demoEnumS2 "UserSort"
      (.enum "UserSort" [("name_asc", "name_asc")])
      (.enum "UserSort" [("name_desc", "name_desc")])
      rfl rfl rfl rfl).2 (Or.inl ⟨_, rfl⟩)

theorem gen_empty : ∀ t : GType, fieldBearing (baseOf t) = true →
    generateNewReturnType t [] = Except.ok t
  | .list i => fun h => by
    rw [generateNewReturnType, gen_empty i (by simpa [baseOf] using h)]
    rfl
  | .nonNull i => fun h => by
    rw [generateNewReturnType, gen_empty i (by simpa [baseOf] using h)]
    rfl
  | .scalar n => fun h => by simp [baseOf, fieldBearing] at h
  | .enum n vs => fun h => by simp [baseOf, fieldBearing] at h
  | .object n fs => fun _ => by
    simp [generateNewReturnType, substNamed, alookup, bind, Except.bind, GType.fieldsOf,
      GType.setFields, GType.nameOf]
  | .inputObject n fs => fun _ => by
    simp [generateNewReturnType, substNamed, alookup, bind, Except.bind, GType.fieldsOf,
      GType.setFields, GType.nameOf]

theorem genField_empty (f : GField) (h : fieldBearing (baseOf f.type) = true) :
    generateNewField f [] = Except.ok f := by
  rw [generateNewField, gen_empty f.type h]
  simp [Except.map, gfield_eta]

theorem rewriteFieldsInto_empty (fields : List (String × GField)) :
    ∀ acc : List (String × GField),
    (∀ p ∈ fields, fieldBearing (baseOf p.2.type) = true) →
    (keysOf acc ++ keysOf fields).Nodup →
    rewriteFieldsInto acc [] fields = Except.ok (acc ++ fields) := by
  induction fields with
  | nil => intro acc _ _; simp [rewriteFieldsInto]
  | cons p rest ih =>
    intro acc hall hnd
    obtain ⟨k, f⟩ := p
    have hf : generateNewField f [] = Except.ok f :=
      genField_empty f (hall (k, f) (List.mem_cons_self _ _))
    rw [rewriteFieldsInto, hf]
    simp only [bind, Except.bind]
    have hk : alookup acc k = none := by
      rw [alookup_eq_none_iff]
      intro hmem
      exact (List.nodup_append.mp hnd).2.2 hmem (by simp [keysOf])
    rw [dinsert_of_none f hk]
    rw [ih (acc ++ [(k, f)]) (fun q hq => hall q (List.mem_cons_of_mem _ hq))
      (by simpa [keysOf, List.append_assoc] using hnd)]
    simp

/-- C4: merging an assembled schema with the empty schema (no types, no
root fields) succeeds and returns a schema whose root Query and Mutation
field maps are exactly the original ones — same field names in the same
order, each with the same return type, arguments and resolver. -/
theorem claimC4_merge_empty_schema_identity (s : Schema)
    (hq : (keysOf s.queryFields).Nodup)
    (hm : (keysOf s.mutationFields).Nodup)
    (hqf : ∀ p ∈ s.queryFields, fieldBearing (baseOf p.2.type) = true)
    (hmf : ∀ p ∈ s.mutationFields, fieldBearing (baseOf p.2.type) = true) :
    mergeSchema s emptySchema = Except.ok ⟨s.queryFields, s.mutationFields, []⟩ := by
  have hq1 := rewriteFieldsInto_empty s.queryFields [] hqf (by simpa [keysOf] using hq)
  have hm1 := rewriteFieldsInto_empty s.mutationFields [] hmf (by simpa [keysOf] using hm)
  simp only [List.nil_append] at hq1 hm1
  simp [mergeSchema, emptySchema, buildJoinedTypeMap, bind, Except.bind, hq1, hm1,
    rewriteFieldsInto]

/-- Witness for C4 at a concrete assembled schema. -/
theorem claimC4_merge_empty_schema_identity_witness :
    mergeSchema demoAssembled emptySchema =
      Except.ok ⟨demoAssembled.queryFields, demoAssembled.mutationFields, []⟩ :=
  claimC4_merge_empty_schema_identity demoAssembled
    (by decide) (by decide) (by decide) (by decide)

theorem collectionInit_map_char : ∀ tables : List (String × Table),
    (collectionInit tables).1 =
      tables.map (fun p => (p.1, (generateManager p.2).1)) := by
  intro tables
  induction tables with
  | nil => rfl
  | cons p rest ih => simp [collectionInit, ih]

theorem collectionInit_warnings_char : ∀ tables : List (String × Table),
    (collectionInit tables).2 = tables.flatMap (fun p => (generateManager p.2).2) := by
  intro tables
  induction tables with
  | nil => rfl
  | cons p rest ih => simp [collectionInit, ih]

theorem rootQuery_char : ∀ tables : List (String × Table),
    rootQueryFields (collectionInit tables).1 =
      tables.flatMap (fun p =>
        if p.2.hasMapper then (mkTableManager p.2).queryFields else []) := by
  intro tables
  induction tables with
  | nil => rfl
  | cons p rest ih =>
    by_cases h : p.2.hasMapper <;>
      simp [collectionInit, rootQueryFields, generateManager, h, ih, rootQueryFields] <;>
      simpa [rootQueryFields] using ih

theorem rootMutation_char : ∀ tables : List (String × Table),
    rootMutationFields (collectionInit tables).1 =
      tables.flatMap (fun p =>
        if p.2.hasMapper then (mkTableManager p.2).mutationFields else []) := by
  intro tables
  induction tables with
  | nil => rfl
  | cons p rest ih =>
    by_cases h : p.2.hasMapper <;>
      simp [collectionInit, rootMutationFields, generateManager, h, ih, rootMutationFields] <;>
      simpa [rootMutationFields] using ih

/-- C8: a table without a mapped model produces a logged warning and a None
entry in the manager map; every mapped table's manager is still built; the
build is total, binds every input table name, and the unmapped table
contributes no field to the root Query or Mutation field sets, which
collect exactly the mapped tables' fields in order. -/
theorem claimC8_unmapped_table_skipped (tables : List (String × Table)) (n : String)
    (t : Table) (hmem : (n, t) ∈ tables) (hnm : t.hasMapper = false) :
    ("No mapper for table '" ++ t.name ++ "'.") ∈ (collectionInit tables).2 ∧
    (n, (none : Option Manager)) ∈ (collectionInit tables).1 ∧
    (∀ n' t', (n', t') ∈ tables → t'.hasMapper = true →
      (n', some (mkTableManager t')) ∈ (collectionInit tables).1) ∧
    keysOf (collectionInit tables).1 = keysOf tables ∧
    rootQueryFields (collectionInit tables).1 =
      tables.flatMap (fun p =>
        if p.2.hasMapper then (mkTableManager p.2).queryFields else []) ∧
    rootMutationFields (collectionInit tables).1 =
      tables.flatMap (fun p =>
        if p.2.hasMapper then (mkTableManager p.2).mutationFields else []) := by
  refine ⟨?_, ?_, ?_, ?_, rootQuery_char tables, rootMutation_char tables⟩
  · rw [collectionInit_warnings_char]
    exact List.mem_flatMap.mpr ⟨(n, t), hmem, by simp [generateManager, hnm]⟩
  · rw [collectionInit_map_char]
    have : ((n, t).1, (generateManager (n, t).2).1) = (n, (none : Option Manager)) := by
      simp [generateManager, hnm]
    exact this ▸ List.mem_map_of_mem _ hmem
  · intro n' t' hmem' hm'
    rw [collectionInit_map_char]
    have : ((n', t').1, (generateManager (n', t').2).1) =
        (n', some (mkTableManager t')) := by
      simp [generateManager, hm']
    exact this ▸ List.mem_map_of_mem _ hmem'
  · rw [collectionInit_map_char]
    simp [keysOf]

/-- Witness for C8 at the concrete two-table input with one unmapped
table. -/
theorem claimC8_unmapped_table_skipped_witness :
    ("No mapper for table 'ghosts'.") ∈ (collectionInit demoTables).2 ∧
    ("ghosts", (none : Option Manager)) ∈ (collectionInit demoTables).1 := by
  have h := claimC8_unmapped_table_skipped demoTables "ghosts" ⟨"ghosts", false⟩
    (by simp [demoTables]) rfl
  exact ⟨h.1, h.2.1⟩

end Magql
